import Mathlib

/-!
# active24-go: a shallow embedding of the client library

The Go package `active24` (files `client.go`, `dns.go`, `domains.go`) is embedded as
pure Lean functions.  The network is explicit state (`Net`): the list of requests that
were executed by `http.Client.Do` and the list of responses whose body was closed.
Everything the package calls in the Go standard library (`http.NewRequest` validation,
`http.Client.Do`, `json.Unmarshal`, `time.Parse`, JSON string quoting) is a field of the
environment `Env`, so every theorem that quantifies over `Env` holds for every behaviour
of the library and of the remote server.
-/

set_option autoImplicit false

namespace active24

/-! ## Go values used by the package -/

/-- Go `error` value (non-nil); `nil` errors are `none : Option GoError`. -/
structure GoError where
  msg : String
  deriving DecidableEq, Repr

/-- Go slice value: `none` is the `nil` slice, `some l` a non-nil slice with elements `l`. -/
abbrev GoSlice (α : Type) := Option (List α)

/-- Go `time.Duration`, an integer count of nanoseconds. -/
abbrev Duration := Int

/-- Go `time.Second`. -/
def Second : Duration := 1000000000

/-- Go `http.Header`, restricted to single-valued keys. -/
abbrev Header := List (String × String)

/-- Go `Header.Set`: replaces the value stored under `key`. -/
def Header.Set (h : Header) (key value : String) : Header :=
  h.filter (fun kv => kv.1 != key) ++ [(key, value)]

/-- Go `Header.Get`, with `none` for an absent key. -/
def Header.Get (h : Header) (key : String) : Option String :=
  h.lookup key

/-- Go `http.Request` as built by `http.NewRequest`: the method and raw URL handed to
`http.NewRequest`, the headers set afterwards and the body reader's content. -/
structure Request where
  Method : String
  URL : String
  Header : Header
  Body : Option String
  deriving DecidableEq, Repr

/-- Outcome of `io.ReadAll(resp.Body)`. -/
inductive ReadResult where
  | data (b : String)
  | failure (err : GoError)
  deriving DecidableEq, Repr

/-- Go `http.Response`: status code and what reading the body to its end yields. -/
structure Response where
  StatusCode : Int
  Body : ReadResult
  deriving DecidableEq, Repr

/-- Outcome of `http.Client.Do`: either a response with a nil error, or a non-nil error
(with which a response may come, as after a failed redirect). -/
inductive DoResult where
  | ok (resp : Response)
  | fail (resp : Option Response) (err : GoError)
  deriving DecidableEq, Repr

/-- Go `time.Time` as a civil date and time with its zone offset in seconds. -/
structure Time where
  year : Nat
  month : Nat
  day : Nat
  hour : Nat
  minute : Nat
  second : Nat
  nanosecond : Nat
  offset : Int
  deriving DecidableEq, Repr

/-- Go `http.MethodGet`. -/
def MethodGet : String := "GET"

/-- Go `http.MethodPost`. -/
def MethodPost : String := "POST"

/-- Go `http.MethodPut`. -/
def MethodPut : String := "PUT"

/-- Go `http.MethodDelete`. -/
def MethodDelete : String := "DELETE"

/-- Go `http.Client`; the package sets only its `Timeout`. -/
structure HttpClient where
  Timeout : Duration
  deriving DecidableEq, Repr

/-! ## dns.go and domains.go: data -/

/-- Go `DnsRecordType`, a string. -/
abbrev DnsRecordType := String

def DnsRecordTypeA : DnsRecordType := "a"
def DnsRecordTypeAAAA : DnsRecordType := "aaaa"
def DnsRecordTypeCAA : DnsRecordType := "caa"
def DnsRecordTypeCNAME : DnsRecordType := "cname"
def DnsRecordTypeMX : DnsRecordType := "mx"
def DnsRecordTypeNS : DnsRecordType := "ns"
def DnsRecordTypeSRV : DnsRecordType := "srv"
def DnsRecordTypeSSHFP : DnsRecordType := "sshfp"
def DnsRecordTypeTLSA : DnsRecordType := "tlsa"
def DnsRecordTypeTXT : DnsRecordType := "txt"

/-- Go `DnsRecord`; a pointer field is an `Option`, `none` being the nil pointer. -/
structure DnsRecord where
  HashId : Option String
  Type_ : Option String
  Ttl : Int
  Name : String
  Port : Option Int
  Priority : Option Int
  Target : Option String
  Weight : Option Int
  NameServer : Option String
  Ip : Option String
  CaaValue : Option String
  Flags : Option Int
  Tag : Option String
  Alias : Option String
  MailServer : Option String
  Algorithm : Option Int
  FingerprintType : Option Int
  CertificateUsage : Option Int
  Hash : Option String
  MatchingType : Option Int
  Selector : Option Int
  Text : Option String
  deriving DecidableEq, Repr

/-- Go `DomainInfo`. -/
structure DomainInfo where
  Name : String
  Status : String
  ExpirationDate : Nat
  HolderFullName : String
  Payable : Bool
  PayedTo : Nat
  deriving DecidableEq, Repr

/-! ## The standard library and the remote server -/

/-- Go `json.Unmarshal(body, &v)` for a slice variable `v`: from the body and the value
of `v` before the call to the value of `v` after it and the returned error. -/
abbrev Unmarshal (α : Type) := String → GoSlice α → GoSlice α × Option GoError

/-- What the package takes from outside itself. -/
structure Env where
  /-- The error of `http.NewRequest(method, url, body)`, `none` when it builds a request. -/
  newRequestErr : String → String → Option GoError
  /-- The method `Do` of an `http.Client` with the given configuration. -/
  clientDo : HttpClient → Request → DoResult
  /-- The JSON string literal that `encoding/json` writes for a Go string. -/
  jsonQuote : String → String
  /-- The function `json.Unmarshal` at type `[]string`. -/
  unmarshalStrings : Unmarshal String
  /-- The function `json.Unmarshal` at type `[]DnsRecord`. -/
  unmarshalRecords : Unmarshal DnsRecord
  /-- The function `json.Unmarshal` at type `[]DomainInfo`. -/
  unmarshalDomains : Unmarshal DomainInfo
  /-- The function `time.Parse(time.RFC3339, s)`. -/
  timeParseRFC3339 : String → Except GoError Time

/-- The network as state: requests executed by `http.Client.Do`, oldest first, and the
responses on whose body `Close` was called, oldest first. -/
structure Net where
  sent : List Request
  closed : List Response
  deriving DecidableEq, Repr

/-- Go `resp.Body.Close()`. -/
def Net.Close (net : Net) (resp : Response) : Net :=
  { net with closed := net.closed ++ [resp] }

/-- Go `http.NewRequest(method, url, body)`. -/
def NewRequest (env : Env) (method url : String) (body : Option String) :
    Except GoError Request :=
  match env.newRequestErr method url with
  | some err => .error err
  | none => .ok { Method := method, URL := url, Header := [], Body := body }

/-! ## client.go -/

def SandboxToken : String := "123456qwerty-ok"

/-- Go `helper`. -/
structure helper where
  apiEndpoint : String
  auth : String
  c : HttpClient
  deriving DecidableEq, Repr

/-- Go `client`. -/
structure client where
  h : helper
  deriving DecidableEq, Repr

/-- Go `type Option func(c *client)`: the update an option performs on the client. -/
abbrev ClientOption := client → client

/-- Go `ApiEndpoint`. -/
def ApiEndpoint (ep : String) : ClientOption :=
  fun c => { c with h := { c.h with apiEndpoint := ep } }

/-- Go `Timeout`. -/
def Timeout (d : Duration) : ClientOption :=
  fun c => { c with h := { c.h with c := { c.h.c with Timeout := d } } }

/-- Go `New`: the defaults, then every option in order. -/
def New (apiKey : String) (opts : List ClientOption) : client :=
  opts.foldl (fun c opt => opt c)
    { h := { apiEndpoint := "https://api.active24.com", auth := apiKey,
             c := { Timeout := Second * 10 } } }

/-- Go `apiError`. -/
structure apiError where
  err : Option GoError
  resp : Option Response
  deriving DecidableEq, Repr

/-- Go `(*apiError).Error`. -/
def apiError.Error (a : apiError) : Option GoError := a.err

/-- Go `(*apiError).Response`. -/
def apiError.Response (a : apiError) : Option Response := a.resp

/-- Go `ApiError` interface value: `none` is the nil interface. -/
abbrev ApiError := Option apiError

/-- Go `(*helper).do`. -/
def helper.do_ (env : Env) (ch : helper) (method suffix : String) (body : Option String)
    (net : Net) : DoResult × Net :=
  match NewRequest env method (ch.apiEndpoint ++ "/" ++ suffix) body with
  | .error err => (.fail none err, net)
  | .ok r =>
    let r := { r with Header := r.Header.Set "Authorization" ("Bearer " ++ ch.auth) }
    let r := { r with Header := r.Header.Set "Content-Type" "application/json" }
    let r := { r with Header := r.Header.Set "Accept" "*/*" }
    (env.clientDo ch.c r, { net with sent := net.sent ++ [r] })

/-- Go `apiErr`. -/
def apiErr (resp : Option Response) (err : Option GoError) : ApiError :=
  match err with
  | none => none
  | some e => some { err := some e, resp := resp }

/-- Go `apiErr(d.h.do(...))`: `apiErr` applied to the two values `do` returns. -/
def apiErrOf (r : DoResult) : ApiError :=
  match r with
  | .ok resp => apiErr (some resp) none
  | .fail resp err => apiErr resp (some err)

/-! ## dns.go -/

/-- A JSON value that `json.Marshal` writes for a field of `DnsRecord`. -/
inductive JsonScalar where
  | int (n : Int)
  | str (s : String)
  deriving DecidableEq, Repr

/-- A field `*string` tagged `json:"key,omitempty"`: left out when the pointer is nil. -/
def omitemptyStr (key : String) (v : Option String) : List (String × JsonScalar) :=
  match v with
  | none => []
  | some s => [(key, .str s)]

/-- A field `*int` tagged `json:"key,omitempty"`: left out when the pointer is nil. -/
def omitemptyInt (key : String) (v : Option Int) : List (String × JsonScalar) :=
  match v with
  | none => []
  | some n => [(key, .int n)]

/-- The members of the JSON object `json.Marshal` writes for a `DnsRecord`, in the order
of the struct's fields and under the keys of their `json` tags. -/
def DnsRecord.jsonMembers (r : DnsRecord) : List (String × JsonScalar) :=
  omitemptyStr "hashId" r.HashId ++
  omitemptyStr "type" r.Type_ ++
  [("ttl", .int r.Ttl)] ++
  [("name", .str r.Name)] ++
  omitemptyInt "port" r.Port ++
  omitemptyInt "priority" r.Priority ++
  omitemptyStr "target" r.Target ++
  omitemptyInt "weight" r.Weight ++
  omitemptyStr "nameserver" r.NameServer ++
  omitemptyStr "ip" r.Ip ++
  omitemptyStr "caaValue" r.CaaValue ++
  omitemptyInt "flags" r.Flags ++
  omitemptyStr "tag" r.Tag ++
  omitemptyStr "alias" r.Alias ++
  omitemptyStr "mailserver" r.MailServer ++
  omitemptyInt "algorithm" r.Algorithm ++
  omitemptyInt "fingerprintType" r.FingerprintType ++
  omitemptyInt "certificateUsage" r.CertificateUsage ++
  omitemptyStr "hash" r.Hash ++
  omitemptyInt "matchingType" r.MatchingType ++
  omitemptyInt "selector" r.Selector ++
  omitemptyStr "text" r.Text

/-- The text of one JSON value. -/
def JsonScalar.render (env : Env) : JsonScalar → String
  | .int n => toString n
  | .str s => env.jsonQuote s

/-- The text of one object member, `"key":value`. -/
def renderMember (env : Env) (m : String × JsonScalar) : String :=
  "\"" ++ m.1 ++ "\":" ++ m.2.render env

/-- Go `json.Marshal(r)` for `r *DnsRecord`: `null` for the nil pointer, else the object
of the record's members.  It has no failing case for this type. -/
def jsonMarshal (env : Env) (r : Option DnsRecord) : Except GoError String :=
  match r with
  | none => .ok "null"
  | some rec => .ok ("\x7b" ++ ",".intercalate (rec.jsonMembers.map (renderMember env)) ++ "\x7d")

/-- Go `dns`. -/
structure dns where
  h : helper
  deriving DecidableEq, Repr

/-- Go `domainAction`. -/
structure domainAction where
  h : helper
  dom : String
  deriving DecidableEq, Repr

/-- Go `(*client).Dns`. -/
def client.Dns (c : client) : dns :=
  { h := c.h }

/-- Go `(*dns).List`.  The deferred `Close` is applied to the network on every path that
follows the `defer` statement. -/
def dns.List (env : Env) (d : dns) (net : Net) : (GoSlice String × ApiError) × Net :=
  match d.h.do_ env MethodGet "dns/domains/v1" none net with
  | (.fail _ err, net1) => ((none, apiErr none (some err)), net1)
  | (.ok resp, net1) =>
    let out : GoSlice String × ApiError :=
      match resp.Body with
      | .failure err => (none, apiErr (some resp) (some err))
      | .data body =>
        match env.unmarshalStrings body (some []) with
        | (_, some err) => (none, apiErr (some resp) (some err))
        | (doms, none) => (doms, apiErr (some resp) none)
    (out, net1.Close resp)

/-- Go `(*dns).With`. -/
def dns.With (d : dns) (domain : String) : domainAction :=
  { h := d.h, dom := domain }

/-- Go `(*domainAction).change`. -/
def domainAction.change (env : Env) (d : domainAction) (method sub : String)
    (r : Option DnsRecord) (net : Net) : DoResult × Net :=
  match jsonMarshal env r with
  | .error err => (.fail none err, net)
  | .ok data => d.h.do_ env method ("dns/" ++ d.dom ++ "/" ++ sub ++ "/v1") (some data) net

/-- Go `(*domainAction).Create`. -/
def domainAction.Create (env : Env) (d : domainAction) (recType : DnsRecordType)
    (r : Option DnsRecord) (net : Net) : ApiError × Net :=
  let res := d.change env MethodPost recType r net
  (apiErrOf res.1, res.2)

/-- Go `(*domainAction).List`. -/
def domainAction.List (env : Env) (d : domainAction) (net : Net) :
    (GoSlice DnsRecord × ApiError) × Net :=
  match d.h.do_ env MethodGet ("dns/" ++ d.dom ++ "/records/v1") none net with
  | (.fail _ err, net1) => ((none, apiErr none (some err)), net1)
  | (.ok resp, net1) =>
    let out : GoSlice DnsRecord × ApiError :=
      if resp.StatusCode > 399 ∧ resp.StatusCode < 600 then
        (none, apiErr (some resp)
          (some ⟨"invalid response from api: " ++ toString resp.StatusCode⟩))
      else
        match resp.Body with
        | .failure err => (none, apiErr (some resp) (some err))
        | .data body =>
          match env.unmarshalRecords body (some []) with
          | (_, some err) => (none, apiErr (some resp) (some err))
          | (ret, none) => (ret, apiErr (some resp) none)
    (out, net1.Close resp)

/-- Go `(*domainAction).Update`. -/
def domainAction.Update (env : Env) (d : domainAction) (recType : DnsRecordType)
    (r : Option DnsRecord) (net : Net) : ApiError × Net :=
  let res := d.change env MethodPut recType r net
  (apiErrOf res.1, res.2)

/-- Go `(*domainAction).Delete`. -/
def domainAction.Delete (env : Env) (d : domainAction) (hashId : String) (net : Net) :
    ApiError × Net :=
  let res := d.h.do_ env MethodDelete ("/dns/" ++ d.dom ++ "/" ++ hashId ++ "/v1") none net
  (apiErrOf res.1, res.2)

/-! ## domains.go -/

/-- Go `domains`. -/
structure domains where
  h : helper
  deriving DecidableEq, Repr

/-- Go `(*client).Domains`. -/
def client.Domains (c : client) : domains :=
  { h := c.h }

/-- Go `(*domains).List`. -/
def domains.List (env : Env) (d : domains) (net : Net) :
    (GoSlice DomainInfo × ApiError) × Net :=
  match d.h.do_ env MethodGet "domains/v1" none net with
  | (.fail _ err, net1) => ((none, apiErr none (some err)), net1)
  | (.ok resp, net1) =>
    let out : GoSlice DomainInfo × ApiError :=
      match resp.Body with
      | .failure err => (none, apiErr (some resp) (some err))
      | .data body =>
        match env.unmarshalDomains body (some []) with
        | (_, some err) => (none, apiErr (some resp) (some err))
        | (doms, none) => (doms, apiErr (some resp) none)
    (out, net1.Close resp)

/-- Go `(*domains).Expiration`; the result is `*time.Time`. -/
def domains.Expiration (env : Env) (d : domains) (domain : String) (net : Net) :
    (Option Time × ApiError) × Net :=
  match d.h.do_ env MethodGet ("domains/" ++ domain ++ "/expiration/v1") none net with
  | (.fail _ err, net1) => ((none, apiErr none (some err)), net1)
  | (.ok resp, net1) =>
    let out : Option Time × ApiError :=
      match resp.Body with
      | .failure err => (none, apiErr (some resp) (some err))
      | .data body =>
        match env.timeParseRFC3339 body with
        | .error err => (none, apiErr (some resp) (some err))
        | .ok ret => (some ret, apiErr (some resp) none)
    (out, net1.Close resp)

/-- Go `(*domains).Status`; the result is `*string`. -/
def domains.Status (env : Env) (d : domains) (domain : String) (net : Net) :
    (Option String × ApiError) × Net :=
  match d.h.do_ env MethodGet ("domains/" ++ domain ++ "/expiration/v1") none net with
  | (.fail _ err, net1) => ((none, apiErr none (some err)), net1)
  | (.ok resp, net1) =>
    let out : Option String × ApiError :=
      match resp.Body with
      | .failure err => (none, apiErr (some resp) (some err))
      | .data body => (some body, apiErr (some resp) none)
    (out, net1.Close resp)

/-! ## A reference environment

A concrete `Env` on which the operations can be evaluated: a mock server that answers
every request with a fixed outcome, a small reader standing for `encoding/json` on the
documents evaluated in this file (JSON without fractional numbers and without `\u`
escapes, object keys spelled as in the struct tags), and `time.Parse` for the layout
`time.RFC3339` as the Go library parses it. -/

/-- A parsed JSON document. -/
inductive Json where
  | null
  | bool (b : Bool)
  | num (n : Int)
  | str (s : String)
  | arr (elems : List Json)
  | obj (members : List (String × Json))

/-- The value of a decimal digit. -/
def digitVal (c : Char) : Option Nat :=
  if 48 ≤ c.toNat ∧ c.toNat ≤ 57 then some (c.toNat - 48) else none

/-- Drops leading JSON white space. -/
def skipWs : List Char → List Char
  | [] => []
  | c :: cs => if c = ' ' ∨ c = '\n' ∨ c = '\t' ∨ c = '\r' then skipWs cs else c :: cs

/-- Reads a string literal after its opening quote; `acc` holds the characters read, newest
first. -/
def readString : List Char → List Char → Option (String × List Char)
  | [], _ => none
  | c :: cs, acc =>
    if c = '"' then some (String.mk acc.reverse, cs)
    else if c = '\\' then
      match cs with
      | [] => none
      | e :: rest =>
        if e = '"' then readString rest ('"' :: acc)
        else if e = '\\' then readString rest ('\\' :: acc)
        else if e = '/' then readString rest ('/' :: acc)
        else if e = 'n' then readString rest ('\n' :: acc)
        else if e = 't' then readString rest ('\t' :: acc)
        else if e = 'r' then readString rest ('\r' :: acc)
        else none
    else if c.toNat < 32 then none
    else readString cs (c :: acc)

/-- Reads the digits at the head of the input onto `acc`. -/
def readDigits : List Char → Nat → Nat × List Char
  | [], acc => (acc, [])
  | c :: cs, acc =>
    match digitVal c with
    | some d => readDigits cs (acc * 10 + d)
    | none => (acc, c :: cs)

/-- Reads an integer literal. -/
def readInt (cs : List Char) : Option (Int × List Char) :=
  match cs with
  | '-' :: d :: rest =>
    match digitVal d with
    | some _ => let r := readDigits (d :: rest) 0; some (-(r.1 : Int), r.2)
    | none => none
  | d :: rest =>
    match digitVal d with
    | some _ => let r := readDigits (d :: rest) 0; some ((r.1 : Int), r.2)
    | none => none
  | [] => none

/-- Reads the elements of a non-empty array up to its closing bracket, each with `value`;
`n` bounds their number. -/
def readElems (value : List Char → Option (Json × List Char)) :
    Nat → List Char → Option (List Json × List Char)
  | 0, _ => none
  | n + 1, cs =>
    match value cs with
    | none => none
    | some (v, rest) =>
      match skipWs rest with
      | ']' :: rest1 => some ([v], rest1)
      | ',' :: rest1 => (readElems value n rest1).map (fun r => (v :: r.1, r.2))
      | _ => none

/-- Reads the members of a non-empty object up to its closing brace, each value with
`value`; `n` bounds their number. -/
def readMembers (value : List Char → Option (Json × List Char)) :
    Nat → List Char → Option (List (String × Json) × List Char)
  | 0, _ => none
  | n + 1, cs =>
    match skipWs cs with
    | '"' :: rest =>
      match readString rest [] with
      | none => none
      | some (key, rest1) =>
        match skipWs rest1 with
        | ':' :: rest2 =>
          match value rest2 with
          | none => none
          | some (v, rest3) =>
            match skipWs rest3 with
            | '}' :: rest4 => some ([(key, v)], rest4)
            | ',' :: rest4 =>
              (readMembers value n rest4).map (fun r => ((key, v) :: r.1, r.2))
            | _ => none
        | _ => none
    | _ => none

/-- Reads one JSON value; `fuel` bounds the nesting and is spent one unit a level. -/
def readValue : Nat → List Char → Option (Json × List Char)
  | 0, _ => none
  | fuel + 1, cs =>
    match skipWs cs with
    | 'n' :: 'u' :: 'l' :: 'l' :: rest => some (.null, rest)
    | 't' :: 'r' :: 'u' :: 'e' :: rest => some (.bool true, rest)
    | 'f' :: 'a' :: 'l' :: 's' :: 'e' :: rest => some (.bool false, rest)
    | '"' :: rest => (readString rest []).map (fun r => (.str r.1, r.2))
    | '[' :: rest =>
      match skipWs rest with
      | ']' :: rest1 => some (.arr [], rest1)
      | _ => (readElems (readValue fuel) (fuel + 1) rest).map (fun r => (.arr r.1, r.2))
    | '{' :: rest =>
      match skipWs rest with
      | '}' :: rest1 => some (.obj [], rest1)
      | _ => (readMembers (readValue fuel) (fuel + 1) rest).map (fun r => (.obj r.1, r.2))
    | other => (readInt other).map (fun r => (.num r.1, r.2))


/-- The first non-nil error of a list, the one `json.Unmarshal` reports. -/
def firstError : List (Option GoError) → Option GoError
  | [] => none
  | some e :: _ => some e
  | none :: rest => firstError rest

/-- The last member stored under `key`, if any. -/
def Json.member (members : List (String × Json)) (key : String) : Option Json :=
  members.reverse.lookup key

/-- Stores a JSON value into a Go `string` whose value was `init`. -/
def storeString (init : String) : Option Json → String × Option GoError
  | none => (init, none)
  | some .null => (init, none)
  | some (.str s) => (s, none)
  | some _ => (init, some ⟨"json: cannot unmarshal value into Go value of type string"⟩)

/-- Stores a JSON value into a Go `*string` field. -/
def storeStringPtr : Option Json → Option String × Option GoError
  | none => (none, none)
  | some .null => (none, none)
  | some (.str s) => (some s, none)
  | some _ => (none, some ⟨"json: cannot unmarshal value into Go value of type string"⟩)

/-- Stores a JSON value into a Go `int` whose value was `init`. -/
def storeInt (init : Int) : Option Json → Int × Option GoError
  | none => (init, none)
  | some .null => (init, none)
  | some (.num n) =>
    if -(2 : Int) ^ 63 ≤ n ∧ n < (2 : Int) ^ 63 then (n, none)
    else (init, some ⟨"json: cannot unmarshal number into Go value of type int"⟩)
  | some _ => (init, some ⟨"json: cannot unmarshal value into Go value of type int"⟩)

/-- Stores a JSON value into a Go `*int` field. -/
def storeIntPtr : Option Json → Option Int × Option GoError
  | none => (none, none)
  | some .null => (none, none)
  | some (.num n) =>
    if -(2 : Int) ^ 63 ≤ n ∧ n < (2 : Int) ^ 63 then (some n, none)
    else (some 0, some ⟨"json: cannot unmarshal number into Go value of type int"⟩)
  | some _ => (some 0, some ⟨"json: cannot unmarshal value into Go value of type int"⟩)

/-- Stores a JSON value into a Go `uint64` whose value was `init`. -/
def storeUint64 (init : Nat) : Option Json → Nat × Option GoError
  | none => (init, none)
  | some .null => (init, none)
  | some (.num n) =>
    if 0 ≤ n ∧ n < (2 : Int) ^ 64 then (n.toNat, none)
    else (init, some ⟨"json: cannot unmarshal number into Go value of type uint64"⟩)
  | some _ => (init, some ⟨"json: cannot unmarshal value into Go value of type uint64"⟩)

/-- Stores a JSON value into a Go `bool` whose value was `init`. -/
def storeBool (init : Bool) : Option Json → Bool × Option GoError
  | none => (init, none)
  | some .null => (init, none)
  | some (.bool b) => (b, none)
  | some _ => (init, some ⟨"json: cannot unmarshal value into Go value of type bool"⟩)

/-- Stores a JSON value into a fresh element of a `[]string`. -/
def storeStringElem (j : Json) : String × Option GoError :=
  storeString "" (some j)

/-- Stores a JSON value into a fresh element of a `[]DomainInfo`. -/
def storeDomainInfo : Json → DomainInfo × Option GoError
  | .null => (⟨"", "", 0, "", false, 0⟩, none)
  | .obj ms =>
    let name := storeString "" (Json.member ms "name")
    let status := storeString "" (Json.member ms "status")
    let expiration := storeUint64 0 (Json.member ms "expirationDate")
    let holder := storeString "" (Json.member ms "holderFullName")
    let payable := storeBool false (Json.member ms "payable")
    let payedTo := storeUint64 0 (Json.member ms "payedTo")
    (⟨name.1, status.1, expiration.1, holder.1, payable.1, payedTo.1⟩,
     firstError [name.2, status.2, expiration.2, holder.2, payable.2, payedTo.2])
  | _ => (⟨"", "", 0, "", false, 0⟩,
      some ⟨"json: cannot unmarshal value into Go value of type active24.DomainInfo"⟩)

/-- The zero `DnsRecord`. -/
def DnsRecord.zero : DnsRecord :=
  { HashId := none, Type_ := none, Ttl := 0, Name := "", Port := none, Priority := none,
    Target := none, Weight := none, NameServer := none, Ip := none, CaaValue := none,
    Flags := none, Tag := none, Alias := none, MailServer := none, Algorithm := none,
    FingerprintType := none, CertificateUsage := none, Hash := none, MatchingType := none,
    Selector := none, Text := none }

/-- Stores a JSON value into a fresh element of a `[]DnsRecord`. -/
def storeDnsRecord : Json → DnsRecord × Option GoError
  | .null => (DnsRecord.zero, none)
  | .obj ms =>
    let hashId := storeStringPtr (Json.member ms "hashId")
    let typeV := storeStringPtr (Json.member ms "type")
    let ttl := storeInt 0 (Json.member ms "ttl")
    let name := storeString "" (Json.member ms "name")
    let port := storeIntPtr (Json.member ms "port")
    let priority := storeIntPtr (Json.member ms "priority")
    let target := storeStringPtr (Json.member ms "target")
    let weight := storeIntPtr (Json.member ms "weight")
    let nameserver := storeStringPtr (Json.member ms "nameserver")
    let ip := storeStringPtr (Json.member ms "ip")
    let caaValue := storeStringPtr (Json.member ms "caaValue")
    let flags := storeIntPtr (Json.member ms "flags")
    let tag := storeStringPtr (Json.member ms "tag")
    let aliasV := storeStringPtr (Json.member ms "alias")
    let mailserver := storeStringPtr (Json.member ms "mailserver")
    let algorithm := storeIntPtr (Json.member ms "algorithm")
    let fingerprintType := storeIntPtr (Json.member ms "fingerprintType")
    let certificateUsage := storeIntPtr (Json.member ms "certificateUsage")
    let hash := storeStringPtr (Json.member ms "hash")
    let matchingType := storeIntPtr (Json.member ms "matchingType")
    let selector := storeIntPtr (Json.member ms "selector")
    let text := storeStringPtr (Json.member ms "text")
    ({ HashId := hashId.1, Type_ := typeV.1, Ttl := ttl.1, Name := name.1, Port := port.1,
       Priority := priority.1, Target := target.1, Weight := weight.1,
       NameServer := nameserver.1, Ip := ip.1, CaaValue := caaValue.1, Flags := flags.1,
       Tag := tag.1, Alias := aliasV.1, MailServer := mailserver.1,
       Algorithm := algorithm.1, FingerprintType := fingerprintType.1,
       CertificateUsage := certificateUsage.1, Hash := hash.1,
       MatchingType := matchingType.1, Selector := selector.1, Text := text.1 },
     firstError [hashId.2, typeV.2, ttl.2, name.2, port.2, priority.2, target.2, weight.2,
       nameserver.2, ip.2, caaValue.2, flags.2, tag.2, aliasV.2, mailserver.2, algorithm.2,
       fingerprintType.2, certificateUsage.2, hash.2, matchingType.2, selector.2, text.2])
  | _ => (DnsRecord.zero,
      some ⟨"json: cannot unmarshal value into Go value of type active24.DnsRecord"⟩)

/-- Stores a parsed document into a slice variable: `null` sets the slice to nil, an
array replaces its elements, anything else leaves it as it was and is an error. -/
def storeSlice {α : Type} (elem : Json → α × Option GoError) (j : Json) (init : GoSlice α) :
    GoSlice α × Option GoError :=
  match j with
  | .null => (none, none)
  | .arr elems => (some (elems.map (fun e => (elem e).1)),
      firstError (elems.map (fun e => (elem e).2)))
  | _ => (init, some ⟨"json: cannot unmarshal value into Go value of slice type"⟩)

/-- The reference `json.Unmarshal` at a slice type: a document that does not parse, or
that is followed by more than white space, is a syntax error and leaves the variable as
it was. -/
def refUnmarshal {α : Type} (elem : Json → α × Option GoError) : Unmarshal α :=
  fun body init =>
    match readValue (body.length + 1) body.toList with
    | none => (init, some ⟨"invalid character or unexpected end of JSON input"⟩)
    | some (j, rest) =>
      match skipWs rest with
      | [] => storeSlice elem j init
      | _ => (init, some ⟨"invalid character after top-level value"⟩)

/-- The reference JSON string literal: quotes, with the escapes of `encoding/json` for the
quote, the backslash, line breaks, tabs and the three characters it writes as `\u00XX`. -/
def refJsonQuote (s : String) : String :=
  let esc : Char → List Char := fun c =>
    if c = '"' then ['\\', '"']
    else if c = '\\' then ['\\', '\\']
    else if c = '\n' then ['\\', 'n']
    else if c = '\r' then ['\\', 'r']
    else if c = '\t' then ['\\', 't']
    else if c = '<' then "\\u003c".toList
    else if c = '>' then "\\u003e".toList
    else if c = '&' then "\\u0026".toList
    else [c]
  String.mk ('"' :: (s.toList.map esc).flatten ++ ['"'])

/-- The reference `http.NewRequest` check: `net/url` refuses a URL that holds an ASCII
control character. -/
def refNewRequestErr (_method url : String) : Option GoError :=
  if url.toList.any (fun c => c.toNat < 32 ∨ c.toNat = 127) then
    some ⟨"net/url: invalid control character in URL"⟩
  else none

/-- Go `time.isLeap`. -/
def isLeap (y : Nat) : Bool :=
  y % 4 = 0 ∧ (y % 100 ≠ 0 ∨ y % 400 = 0)

/-- Go `time.daysIn(m, year)` for a month from 1 to 12. -/
def daysIn (y m : Nat) : Nat :=
  if m = 2 then (if isLeap y then 29 else 28)
  else if m = 4 ∨ m = 6 ∨ m = 9 ∨ m = 11 then 30
  else 31

/-- The lower-case hexadecimal digits of a byte. -/
def hexByte (b : UInt8) : List Char :=
  [Nat.digitChar (b.toNat / 16), Nat.digitChar (b.toNat % 16)]

/-- Go `time.quote`: the text between double quotes, a quote and a backslash behind a
backslash, and every byte of a control or non-ASCII character as `\xNN`. -/
def timeQuote (s : List Char) : String :=
  let esc : Char → List Char := fun c =>
    if c.toNat ≥ 128 ∨ c.toNat < 32 then
      ((String.utf8EncodeChar c).map (fun b => '\\' :: 'x' :: hexByte b)).flatten
    else if c = '"' ∨ c = '\\' then ['\\', c]
    else [c]
  String.mk ('"' :: (s.map esc).flatten ++ ['"'])

/-- The layout `time.RFC3339`. -/
def RFC3339 : String := "2006-01-02T15:04:05Z07:00"

/-- Go `(*time.ParseError).Error` for the layout `time.RFC3339`: with an empty message the
text names the element of the value that does not parse and the element of the layout it
stands for, otherwise the message follows the quoted value. -/
def parseErrorText (value : String) (layoutElem : String) (valueElem : List Char)
    (message : String) : GoError :=
  if message = "" then
    ⟨"parsing time " ++ timeQuote value.toList ++ " as " ++ timeQuote RFC3339.toList ++
      ": cannot parse " ++ timeQuote valueElem ++ " as " ++ timeQuote layoutElem.toList⟩
  else
    ⟨"parsing time " ++ timeQuote value.toList ++ message⟩

/-- Go `time.getnum(s, fixed)`: a number of one or two digits, of two when `fixed`. -/
def getnum (s : List Char) (fixed : Bool) : Option (Nat × List Char) :=
  match s with
  | [] => none
  | a :: rest =>
    match digitVal a with
    | none => none
    | some x =>
      match rest with
      | [] => if fixed then none else some (x, rest)
      | b :: rest2 =>
        match digitVal b with
        | some y => some (x * 10 + y, rest2)
        | none => if fixed then none else some (x, rest)

/-- The element `2006` of the layout: four bytes, the first a digit, read by `atoi`. -/
def getYear (s : List Char) : Option (Nat × List Char) :=
  match s with
  | a :: b :: c :: d :: rest =>
    match digitVal a, digitVal b, digitVal c, digitVal d with
    | some w, some x, some y, some z => some (w * 1000 + x * 100 + y * 10 + z, rest)
    | _, _, _, _ => none
  | _ => none

/-- Go `time.skip(value, prefix)` for a prefix of one character that is no space. -/
def skipLit (lit : Char) (s : List Char) : Option (List Char) :=
  match s with
  | c :: rest => if c = lit then some rest else none
  | [] => none

/-- The digits at the head of the input, and what follows them. -/
def takeDigits : List Char → List Nat × List Char
  | [] => ([], [])
  | c :: cs =>
    match digitVal c with
    | some d => let r := takeDigits cs; (d :: r.1, r.2)
    | none => ([], c :: cs)

/-- Go `time.parseNanoseconds` on the digits behind the separator: the first nine count,
scaled to nanoseconds. -/
def parseNanoseconds (digits : List Nat) : Nat :=
  (digits.take 9).foldl (fun acc d => acc * 10 + d) 0 * 10 ^ (9 - (digits.take 9).length)

/-- The fraction of a second that may follow the seconds though the layout has none: a
period or a comma and at least one digit. -/
def getFraction (s : List Char) : Nat × List Char :=
  match s with
  | sep :: c :: cs =>
    if sep = '.' ∨ sep = ',' then
      match digitVal c with
      | some _ => let r := takeDigits (c :: cs); (parseNanoseconds r.1, r.2)
      | none => (0, s)
    else (0, s)
  | _ => (0, s)

/-- The element `Z07:00` of the layout: `Z`, or a sign, two digits, a colon and two
digits.  The result is the offset in seconds and the rest of the input, or the name of
the field that is out of range, or `none` when the element does not parse.  As Go does,
an offset of 24 hours or of 60 minutes is let through. -/
def getZone (s : List Char) : Option (Except String (Int × List Char)) :=
  match s with
  | 'Z' :: rest => some (.ok (0, rest))
  | sign :: h1 :: h2 :: c3 :: m1 :: m2 :: rest =>
    if c3 = ':' then
      let hr := getnum [h1, h2] true
      let mm := match hr with
        | some _ => getnum [m1, m2] true
        | none => none
      let h : Nat := (hr.map Prod.fst).getD 0
      let m : Nat := (mm.map Prod.fst).getD 0
      if m > 60 then some (.error "time zone offset minute")
      else if h > 24 then some (.error "time zone offset hour")
      else
        match mm with
        | none => none
        | some _ =>
          if sign = '+' then some (.ok ((((h * 60 + m) * 60 : Nat) : Int), rest))
          else if sign = '-' then some (.ok (-(((h * 60 + m) * 60 : Nat) : Int), rest))
          else none
    else none
  | _ => none

/-- Go `time.Parse(time.RFC3339, value)`, following `time.parse` (Go 1.20 and later)
element by element of the layout `2006-01-02T15:04:05Z07:00`: a year of four digits, a
month and a day of two, an hour of one or two, minutes and seconds of two, an optional
fraction, the zone, nothing behind it, and last the check of the day against the month.
The result holds the fields as written and the zone offset. -/
def goTimeParse (value : String) : Except GoError Time :=
  let bad : String → List Char → Except GoError Time :=
    fun layoutElem valueElem => .error (parseErrorText value layoutElem valueElem "")
  let range : String → Except GoError Time :=
    fun field => .error (parseErrorText value "" [] (": " ++ field ++ " out of range"))
  let v0 := value.toList
  match getYear v0 with
  | none => bad "2006" v0
  | some (year, v1) =>
  match skipLit '-' v1 with
  | none => bad "-" v1
  | some v2 =>
  match getnum v2 true with
  | none => bad "01" v2
  | some (month, v3) =>
  if month = 0 ∨ 12 < month then range "month" else
  match skipLit '-' v3 with
  | none => bad "-" v3
  | some v4 =>
  match getnum v4 true with
  | none => bad "02" v4
  | some (day, v5) =>
  match skipLit 'T' v5 with
  | none => bad "T" v5
  | some v6 =>
  match getnum v6 false with
  | none => bad "15" v6
  | some (hour, v7) =>
  if 24 ≤ hour then range "hour" else
  match skipLit ':' v7 with
  | none => bad ":" v7
  | some v8 =>
  match getnum v8 true with
  | none => bad "04" v8
  | some (minute, v9) =>
  if 60 ≤ minute then range "minute" else
  match skipLit ':' v9 with
  | none => bad ":" v9
  | some v10 =>
  match getnum v10 true with
  | none => bad "05" v10
  | some (sec, v11) =>
  if 60 ≤ sec then range "second" else
  match getZone (getFraction v11).2 with
  | none => bad "Z07:00" (getFraction v11).2
  | some (.error field) => range field
  | some (.ok (offset, v12)) =>
  match v12 with
  | _ :: _ => .error (parseErrorText value "" [] (": extra text: " ++ timeQuote v12))
  | [] =>
  if day < 1 ∨ day > daysIn year month then
    .error (parseErrorText value "" [] ": day out of range")
  else .ok ⟨year, month, day, hour, minute, sec, (getFraction v11).1, offset⟩

/-- The reference environment around a mock server that answers every request with
`reply`. -/
def mockEnv (reply : DoResult) : Env :=
  { newRequestErr := refNewRequestErr
    clientDo := fun _ _ => reply
    jsonQuote := refJsonQuote
    unmarshalStrings := refUnmarshal storeStringElem
    unmarshalRecords := refUnmarshal storeDnsRecord
    unmarshalDomains := refUnmarshal storeDomainInfo
    timeParseRFC3339 := goTimeParse }

/-- A network on which nothing has happened yet. -/
def Net.empty : Net :=
  { sent := [], closed := [] }

/-! ## Specification-side definitions -/

/-- A call of one of the two option constructors the package exports. -/
inductive OptionCall where
  | apiEndpoint (ep : String)
  | timeout (d : Duration)
  deriving DecidableEq, Repr

/-- The option a call builds. -/
def OptionCall.option : OptionCall → ClientOption
  | .apiEndpoint ep => ApiEndpoint ep
  | .timeout d => Timeout d

/-- The argument of the last `ApiEndpoint` call of a sequence. -/
def lastEndpoint (calls : List OptionCall) : Option String :=
  calls.reverse.findSome? (fun call =>
    match call with
    | .apiEndpoint ep => some ep
    | .timeout _ => none)

/-- The argument of the last `Timeout` call of a sequence. -/
def lastTimeout (calls : List OptionCall) : Option Duration :=
  calls.reverse.findSome? (fun call =>
    match call with
    | .apiEndpoint _ => none
    | .timeout d => some d)

/-- The documented JSON keys of a DNS record, in the order of the struct's fields, each
with the value of its field when that field is set; `ttl` and `name` are always set. -/
def DnsRecord.documented (r : DnsRecord) : List (String × Option JsonScalar) :=
  [("hashId", r.HashId.map .str),
   ("type", r.Type_.map .str),
   ("ttl", some (.int r.Ttl)),
   ("name", some (.str r.Name)),
   ("port", r.Port.map .int),
   ("priority", r.Priority.map .int),
   ("target", r.Target.map .str),
   ("weight", r.Weight.map .int),
   ("nameserver", r.NameServer.map .str),
   ("ip", r.Ip.map .str),
   ("caaValue", r.CaaValue.map .str),
   ("flags", r.Flags.map .int),
   ("tag", r.Tag.map .str),
   ("alias", r.Alias.map .str),
   ("mailserver", r.MailServer.map .str),
   ("algorithm", r.Algorithm.map .int),
   ("fingerprintType", r.FingerprintType.map .int),
   ("certificateUsage", r.CertificateUsage.map .int),
   ("hash", r.Hash.map .str),
   ("matchingType", r.MatchingType.map .int),
   ("selector", r.Selector.map .int),
   ("text", r.Text.map .str)]

/-- The 22 documented keys. -/
def documentedKeys : List String :=
  ["hashId", "type", "ttl", "name", "port", "priority", "target", "weight", "nameserver",
   "ip", "caaValue", "flags", "tag", "alias", "mailserver", "algorithm", "fingerprintType",
   "certificateUsage", "hash", "matchingType", "selector", "text"]

/-- A documented key with its value, when the value is set. -/
def setMember (kv : String × Option JsonScalar) : Option (String × JsonScalar) :=
  kv.2.map (fun v => (kv.1, v))

/-- The text of one member of the serialization: the key between double quotes, a colon,
and the value, an integer in decimal and a string as a JSON string literal. -/
def memberText (quote : String → String) (key : String) (v : JsonScalar) : String :=
  match v with
  | .int n => "\"" ++ key ++ "\":" ++ toString n
  | .str s => "\"" ++ key ++ "\":" ++ quote s

/-- The JSON serialization of a DNS record: the object of its documented keys whose field
is set, in the documented order, separated by commas. -/
def DnsRecord.specJson (quote : String → String) (r : DnsRecord) : String :=
  "\x7b" ++ ",".intercalate
    ((r.documented.filterMap setMember).map (fun m => memberText quote m.1 m.2)) ++ "\x7d"

/-- The JSON serialization of a record pointer: `null` for the nil pointer. -/
def specBody (quote : String → String) (r : Option DnsRecord) : String :=
  match r with
  | none => "null"
  | some rec => rec.specJson quote

/-- The keys of the JSON object a text denotes, in the order they are written; `none`
when the text is no JSON object. -/
def objectKeys (text : String) : Option (List String) :=
  match readValue (text.length + 1) text.toList with
  | some (.obj members, rest) =>
    match skipWs rest with
    | [] => some (members.map Prod.fst)
    | _ => none
  | _ => none

/-- The number written by two digits. -/
def twoDigits (a b : Char) : Option Nat :=
  match digitVal a, digitVal b with
  | some x, some y => some (x * 10 + y)
  | _, _ => none

/-- The zone of an RFC 3339 timestamp, `time-offset` of section 5.6, which ends the input:
`Z`, or a sign, an hour from 00 to 23, a colon and a minute from 00 to 59. -/
def isTimeOffset (s : List Char) : Bool :=
  match s with
  | [z] => decide (z = 'Z' ∨ z = 'z')
  | [sign, h1, h2, c, m1, m2] =>
    match twoDigits h1 h2, twoDigits m1 m2 with
    | some h, some m => decide ((sign = '+' ∨ sign = '-') ∧ c = ':' ∧ h < 24 ∧ m < 60)
    | _, _ => false
  | _ => false

/-- Whether the whole of a text is a `date-time` of RFC 3339, section 5.6: a year of four
digits, month, day, hour, minute and second of two digits each and in range (a second may
be 60, a leap second), an optional fraction of at least one digit, and the zone. -/
def isRFC3339 (s : String) : Bool :=
  match s.toList with
  | y1 :: y2 :: y3 :: y4 :: c1 :: mo1 :: mo2 :: c2 :: d1 :: d2 :: t ::
      h1 :: h2 :: c3 :: mi1 :: mi2 :: c4 :: s1 :: s2 :: rest =>
    match twoDigits y1 y2, twoDigits y3 y4, twoDigits mo1 mo2, twoDigits d1 d2,
        twoDigits h1 h2, twoDigits mi1 mi2, twoDigits s1 s2 with
    | some ya, some yb, some mo, some d, some h, some mi, some sec =>
      decide (c1 = '-' ∧ c2 = '-' ∧ (t = 'T' ∨ t = 't') ∧ c3 = ':' ∧ c4 = ':' ∧
        1 ≤ mo ∧ mo ≤ 12 ∧ 1 ≤ d ∧ d ≤ daysIn (ya * 100 + yb) mo ∧
        h < 24 ∧ mi < 60 ∧ sec ≤ 60) &&
      (match rest with
        | '.' :: c :: cs =>
          (digitVal c).isSome && isTimeOffset (takeDigits (c :: cs)).2
        | other => isTimeOffset other)
    | _, _, _, _, _, _, _ => false
  | _ => false

/-- The request `helper.do` builds for a method, path suffix and body: the URL is the
endpoint, one slash and the suffix, and the three headers are set. -/
def helper.request (ch : helper) (method suffix : String) (body : Option String) : Request :=
  { Method := method
    URL := ch.apiEndpoint ++ "/" ++ suffix
    Header := [("Authorization", "Bearer " ++ ch.auth), ("Content-Type", "application/json"),
      ("Accept", "*/*")]
    Body := body }

/-- The requests a call of `helper.do` hands to the transport: the built request when
`http.NewRequest` accepts the method and URL, none otherwise. -/
def helper.issued (env : Env) (ch : helper) (method suffix : String) (body : Option String) :
    List Request :=
  match env.newRequestErr method (ch.apiEndpoint ++ "/" ++ suffix) with
  | none => [ch.request method suffix body]
  | some _ => []

/-! ## Lemmas on the transport helper -/

theorem do_sent (env : Env) (ch : helper) (method suffix : String) (body : Option String)
    (net : Net) :
    (ch.do_ env method suffix body net).2.sent = net.sent ++ ch.issued env method suffix body := by
  unfold helper.do_ helper.issued NewRequest
  cases h : env.newRequestErr method (ch.apiEndpoint ++ "/" ++ suffix) with
  | none => simp [helper.request, Header.Set]
  | some e => simp

theorem do_closed (env : Env) (ch : helper) (method suffix : String) (body : Option String)
    (net : Net) :
    (ch.do_ env method suffix body net).2.closed = net.closed := by
  unfold helper.do_ NewRequest
  cases h : env.newRequestErr method (ch.apiEndpoint ++ "/" ++ suffix) <;> simp

theorem do_result (env : Env) (ch : helper) (method suffix : String) (body : Option String)
    (net : Net) :
    (ch.do_ env method suffix body net).1 =
      match env.newRequestErr method (ch.apiEndpoint ++ "/" ++ suffix) with
      | none => env.clientDo ch.c (ch.request method suffix body)
      | some err => .fail none err := by
  unfold helper.do_ NewRequest
  cases h : env.newRequestErr method (ch.apiEndpoint ++ "/" ++ suffix) with
  | none => simp [helper.request, Header.Set]
  | some e => simp

theorem issued_auth (env : Env) (ch : helper) (method suffix : String) (body : Option String) :
    ∀ r ∈ ch.issued env method suffix body,
      r.Header.Get "Authorization" = some ("Bearer " ++ ch.auth) := by
  intro r hr
  unfold helper.issued at hr
  cases h : env.newRequestErr method (ch.apiEndpoint ++ "/" ++ suffix) with
  | none =>
    rw [h] at hr
    simp at hr
    subst hr
    simp [helper.request, Header.Get, List.lookup]
  | some e =>
    rw [h] at hr
    simp at hr

theorem New_snoc (apiKey : String) (opts : List ClientOption) (opt : ClientOption) :
    New apiKey (opts ++ [opt]) = opt (New apiKey opts) := by
  simp [New, List.foldl_append]

theorem New_auth (apiKey : String) (calls : List OptionCall) :
    (New apiKey (calls.map OptionCall.option)).h.auth = apiKey := by
  induction calls using List.reverseRecOn with
  | nil => rfl
  | append_singleton cs c ih =>
    rw [List.map_append, List.map_singleton, New_snoc]
    cases c <;> simpa [OptionCall.option, ApiEndpoint, Timeout] using ih

/-! ## Lemmas on the facade operations: what each hands to the transport helper -/

theorem filterMap_setMember_str (key : String) (v : Option String)
    (rest : List (String × Option JsonScalar)) :
    List.filterMap setMember ((key, v.map JsonScalar.str) :: rest) =
      omitemptyStr key v ++ List.filterMap setMember rest := by
  cases v <;> simp [setMember, omitemptyStr]

theorem filterMap_setMember_int (key : String) (v : Option Int)
    (rest : List (String × Option JsonScalar)) :
    List.filterMap setMember ((key, v.map JsonScalar.int) :: rest) =
      omitemptyInt key v ++ List.filterMap setMember rest := by
  cases v <;> simp [setMember, omitemptyInt]

theorem filterMap_setMember_some (key : String) (v : JsonScalar)
    (rest : List (String × Option JsonScalar)) :
    List.filterMap setMember ((key, some v) :: rest) =
      [(key, v)] ++ List.filterMap setMember rest := by
  simp [setMember]

theorem jsonMembers_eq (r : DnsRecord) :
    r.jsonMembers = r.documented.filterMap setMember := by
  simp only [DnsRecord.documented, DnsRecord.jsonMembers, filterMap_setMember_str,
    filterMap_setMember_int, filterMap_setMember_some, List.filterMap_nil, List.append_assoc,
    List.append_nil]

theorem setMember_keys_sublist (l : List (String × Option JsonScalar)) :
    ((l.filterMap setMember).map Prod.fst).Sublist (l.map Prod.fst) := by
  induction l with
  | nil => simp
  | cons kv rest ih =>
    rcases kv with ⟨k, v⟩
    cases v with
    | none => simpa [setMember] using ih.cons k
    | some x => simpa [setMember] using ih.cons₂ k

theorem jsonMarshal_ok (env : Env) (r : Option DnsRecord) :
    ∃ data, jsonMarshal env r = .ok data := by
  cases r <;> exact ⟨_, rfl⟩

theorem change_eq (env : Env) (d : domainAction) (method sub : String) (r : Option DnsRecord)
    (net : Net) (data : String) (h : jsonMarshal env r = .ok data) :
    d.change env method sub r net =
      d.h.do_ env method ("dns/" ++ d.dom ++ "/" ++ sub ++ "/v1") (some data) net := by
  unfold domainAction.change
  rw [h]

theorem dnsList_net (env : Env) (d : dns) (net : Net) :
    (dns.List env d net).2.sent = (d.h.do_ env MethodGet "dns/domains/v1" none net).2.sent := by
  unfold dns.List
  rcases h : d.h.do_ env MethodGet "dns/domains/v1" none net with ⟨r, n⟩
  cases r <;> simp [Net.Close]

theorem recordsList_net (env : Env) (d : domainAction) (net : Net) :
    (d.List env net).2.sent =
      (d.h.do_ env MethodGet ("dns/" ++ d.dom ++ "/records/v1") none net).2.sent := by
  unfold domainAction.List
  rcases h : d.h.do_ env MethodGet ("dns/" ++ d.dom ++ "/records/v1") none net with ⟨r, n⟩
  cases r <;> simp [Net.Close]

theorem domainsList_net (env : Env) (d : domains) (net : Net) :
    (d.List env net).2.sent = (d.h.do_ env MethodGet "domains/v1" none net).2.sent := by
  unfold domains.List
  rcases h : d.h.do_ env MethodGet "domains/v1" none net with ⟨r, n⟩
  cases r <;> simp [Net.Close]

theorem expiration_net (env : Env) (d : domains) (domain : String) (net : Net) :
    (d.Expiration env domain net).2.sent =
      (d.h.do_ env MethodGet ("domains/" ++ domain ++ "/expiration/v1") none net).2.sent := by
  unfold domains.Expiration
  rcases h : d.h.do_ env MethodGet ("domains/" ++ domain ++ "/expiration/v1") none net
    with ⟨r, n⟩
  cases r <;> simp [Net.Close]

theorem status_net (env : Env) (d : domains) (domain : String) (net : Net) :
    (d.Status env domain net).2.sent =
      (d.h.do_ env MethodGet ("domains/" ++ domain ++ "/expiration/v1") none net).2.sent := by
  unfold domains.Status
  rcases h : d.h.do_ env MethodGet ("domains/" ++ domain ++ "/expiration/v1") none net
    with ⟨r, n⟩
  cases r <;> simp [Net.Close]

/-! ## Client construction -/

/-- C7: for every API key and every sequence of `ApiEndpoint` and `Timeout` options, the
client `New` builds has the endpoint of the last `ApiEndpoint` option (the production URL
when there is none), the timeout of the last `Timeout` option (10 seconds, in nanoseconds,
when there is none) and the given key; `ApiEndpoint` changes only the endpoint, `Timeout`
only the timeout; and the two facades carry the client's configuration. -/
theorem New_last_option_wins (apiKey : String) (calls : List OptionCall) :
    (New apiKey (calls.map OptionCall.option)).h.apiEndpoint =
        (lastEndpoint calls).getD "https://api.active24.com" ∧
    (New apiKey (calls.map OptionCall.option)).h.c.Timeout =
        (lastTimeout calls).getD 10000000000 ∧
    (New apiKey (calls.map OptionCall.option)).h.auth = apiKey ∧
    (∀ (ep : String) (c : client),
        (ApiEndpoint ep c).h.apiEndpoint = ep ∧
        (ApiEndpoint ep c).h.c.Timeout = c.h.c.Timeout ∧
        (ApiEndpoint ep c).h.auth = c.h.auth) ∧
    (∀ (t : Duration) (c : client),
        (Timeout t c).h.c.Timeout = t ∧
        (Timeout t c).h.apiEndpoint = c.h.apiEndpoint ∧
        (Timeout t c).h.auth = c.h.auth) ∧
    (New apiKey (calls.map OptionCall.option)).Dns.h =
        (New apiKey (calls.map OptionCall.option)).h ∧
    (New apiKey (calls.map OptionCall.option)).Domains.h =
        (New apiKey (calls.map OptionCall.option)).h := by
  refine ⟨?_, ?_, New_auth apiKey calls, fun _ _ => ⟨rfl, rfl, rfl⟩,
    fun _ _ => ⟨rfl, rfl, rfl⟩, rfl, rfl⟩
  · induction calls using List.reverseRecOn with
    | nil => rfl
    | append_singleton cs c ih =>
      rw [List.map_append, List.map_singleton, New_snoc]
      cases c with
      | apiEndpoint ep => simp [OptionCall.option, ApiEndpoint, lastEndpoint]
      | timeout t =>
        simpa [OptionCall.option, Timeout, lastEndpoint] using ih
  · induction calls using List.reverseRecOn with
    | nil => rfl
    | append_singleton cs c ih =>
      rw [List.map_append, List.map_singleton, New_snoc]
      cases c with
      | apiEndpoint ep =>
        simpa [OptionCall.option, ApiEndpoint, lastTimeout] using ih
      | timeout t => simp [OptionCall.option, Timeout, lastTimeout]

/-! ## Request construction -/

/-- C3: whenever `http.NewRequest` accepts the method and the URL, `helper.do` hands the
transport exactly one request, with the given method, the URL `endpoint ++ "/" ++ suffix`
as it stands, the given body, and the headers `Authorization: Bearer <auth>`,
`Content-Type: application/json` and `Accept: */*`; and every request issued by any of the
eight facade operations of a client built by `New` with `ApiEndpoint` and `Timeout`
options carries `Authorization: Bearer <apiKey>`. -/
theorem do_builds_request (env : Env) :
    (∀ (ch : helper) (method suffix : String) (body : Option String) (net : Net),
      (∃ r0, NewRequest env method (ch.apiEndpoint ++ "/" ++ suffix) body = .ok r0) →
      ∃ r, (ch.do_ env method suffix body net).2.sent = net.sent ++ [r] ∧
        (ch.do_ env method suffix body net).1 = env.clientDo ch.c r ∧
        r.Method = method ∧
        r.URL = ch.apiEndpoint ++ "/" ++ suffix ∧
        r.Body = body ∧
        r.Header.Get "Authorization" = some ("Bearer " ++ ch.auth) ∧
        r.Header.Get "Content-Type" = some "application/json" ∧
        r.Header.Get "Accept" = some "*/*") ∧
    (∀ (apiKey : String) (calls : List OptionCall) (net : Net) (domain sub : String)
        (rec : Option DnsRecord),
      let c := New apiKey (calls.map OptionCall.option)
      ∀ sent ∈ [(c.Dns.List env net).2.sent,
          ((c.Dns.With domain).Create env sub rec net).2.sent,
          ((c.Dns.With domain).List env net).2.sent,
          ((c.Dns.With domain).Update env sub rec net).2.sent,
          ((c.Dns.With domain).Delete env sub net).2.sent,
          (c.Domains.List env net).2.sent,
          (c.Domains.Expiration env domain net).2.sent,
          (c.Domains.Status env domain net).2.sent],
        ∃ issued, sent = net.sent ++ issued ∧
          ∀ r ∈ issued, r.Header.Get "Authorization" = some ("Bearer " ++ apiKey)) := by
  constructor
  · intro ch method suffix body net hok
    have hnone : env.newRequestErr method (ch.apiEndpoint ++ "/" ++ suffix) = none := by
      rcases hok with ⟨r0, h0⟩
      unfold NewRequest at h0
      cases h : env.newRequestErr method (ch.apiEndpoint ++ "/" ++ suffix) with
      | none => rfl
      | some e => rw [h] at h0; cases h0
    refine ⟨ch.request method suffix body, ?_, ?_, rfl, rfl, rfl, ?_, ?_, ?_⟩
    · rw [do_sent]
      simp [helper.issued, hnone]
    · rw [do_result, hnone]
    · simp [helper.request, Header.Get, List.lookup]
    · simp [helper.request, Header.Get, List.lookup]
    · simp [helper.request, Header.Get, List.lookup]
  · intro apiKey calls net domain sub rec c sent hsent
    have hauth : c.h.auth = apiKey := New_auth apiKey calls
    have key : ∀ (method suffix : String) (body : Option String),
        ∃ issued, (c.h.do_ env method suffix body net).2.sent = net.sent ++ issued ∧
          ∀ r ∈ issued, r.Header.Get "Authorization" = some ("Bearer " ++ apiKey) := by
      intro method suffix body
      refine ⟨c.h.issued env method suffix body, do_sent env c.h method suffix body net, ?_⟩
      intro r hr
      rw [← hauth]
      exact issued_auth env c.h method suffix body r hr
    obtain ⟨data, hdata⟩ := jsonMarshal_ok env rec
    simp only [List.mem_cons, List.mem_singleton, List.not_mem_nil, or_false] at hsent
    rcases hsent with h | h | h | h | h | h | h | h
    · rw [h, dnsList_net]; exact key _ _ _
    · rw [h]
      simp only [domainAction.Create]
      rw [change_eq env _ _ _ _ _ data hdata]
      exact key _ _ _
    · rw [h, recordsList_net]; exact key _ _ _
    · rw [h]
      simp only [domainAction.Update]
      rw [change_eq env _ _ _ _ _ data hdata]
      exact key _ _ _
    · rw [h]
      simp only [domainAction.Delete]
      exact key _ _ _
    · rw [h, domainsList_net]; exact key _ _ _
    · rw [h, expiration_net]; exact key _ _ _
    · rw [h, status_net]; exact key _ _ _

/-- C3, at a concrete input: the sandbox client of the examples lists the DNS domains
through one `GET` request on the sandbox endpoint, with the three headers. -/
theorem do_builds_request_witness :
    (∃ r, ((New SandboxToken [ApiEndpoint "https://sandboxapi.active24.com"]).h.do_
          (mockEnv (.ok ⟨200, .data "[]"⟩)) MethodGet "dns/domains/v1" none Net.empty).2.sent
          = Net.empty.sent ++ [r] ∧
        ((New SandboxToken [ApiEndpoint "https://sandboxapi.active24.com"]).h.do_
          (mockEnv (.ok ⟨200, .data "[]"⟩)) MethodGet "dns/domains/v1" none Net.empty).1
          = (mockEnv (.ok ⟨200, .data "[]"⟩)).clientDo
              (New SandboxToken [ApiEndpoint "https://sandboxapi.active24.com"]).h.c r ∧
        r.Method = "GET" ∧
        r.URL = "https://sandboxapi.active24.com" ++ "/" ++ "dns/domains/v1" ∧
        r.Body = none ∧
        r.Header.Get "Authorization" = some ("Bearer " ++ "123456qwerty-ok") ∧
        r.Header.Get "Content-Type" = some "application/json" ∧
        r.Header.Get "Accept" = some "*/*") :=
  (do_builds_request (mockEnv (.ok ⟨200, .data "[]"⟩))).1
    (New SandboxToken [ApiEndpoint "https://sandboxapi.active24.com"]).h
    MethodGet "dns/domains/v1" none Net.empty ⟨_, rfl⟩

/-! ## Paths of the DNS record operations -/

/-- C2: `Delete` hands `helper.do` the suffix `"/dns/" ++ domain ++ "/" ++ hashId ++ "/v1"`,
with a leading slash, for every endpoint, domain and hash id; on the production endpoint,
for the domain `example.com` and the hash id `abc`, the one request it issues is a
`DELETE` of `https://api.active24.com//dns/example.com/abc/v1`, with two slashes before
`dns`, which is not the URL `endpoint ++ "/dns/" ++ domain ++ "/" ++ hashId ++ "/v1"`. -/
theorem Delete_suffix_has_leading_slash :
    (∀ (env : Env) (d : domainAction) (hashId : String) (net : Net),
      (d.Delete env hashId net).2.sent = net.sent ++
        d.h.issued env "DELETE" ("/dns/" ++ d.dom ++ "/" ++ hashId ++ "/v1") none) ∧
    (((New SandboxToken []).Dns.With "example.com").Delete
        (mockEnv (.ok ⟨200, .data ""⟩)) "abc" Net.empty).2.sent =
      [{ Method := "DELETE"
         URL := "https://api.active24.com//dns/example.com/abc/v1"
         Header := [("Authorization", "Bearer 123456qwerty-ok"),
           ("Content-Type", "application/json"), ("Accept", "*/*")]
         Body := none }] ∧
    "https://api.active24.com//dns/example.com/abc/v1" ≠
      "https://api.active24.com" ++ "/dns/" ++ "example.com" ++ "/" ++ "abc" ++ "/v1" := by
  refine ⟨?_, by decide, by decide⟩
  intro env d hashId net
  simp only [domainAction.Delete]
  exact do_sent env d.h _ _ _ net

theorem renderMember_eq (env : Env) (m : String × JsonScalar) :
    renderMember env m = memberText env.jsonQuote m.1 m.2 := by
  rcases m with ⟨k, v⟩
  cases v <;> rfl

theorem jsonMarshal_eq (env : Env) (r : Option DnsRecord) :
    jsonMarshal env r = .ok (specBody env.jsonQuote r) := by
  cases r with
  | none => rfl
  | some rec =>
    have hf : renderMember env = fun m => memberText env.jsonQuote m.1 m.2 :=
      funext (renderMember_eq env)
    simp only [jsonMarshal, specBody, DnsRecord.specJson, jsonMembers_eq, hf]

theorem do_refused (env : Env) (ch : helper) (method suffix : String) (body : Option String)
    (net : Net) (e : GoError)
    (h : env.newRequestErr method (ch.apiEndpoint ++ "/" ++ suffix) = some e) :
    ch.do_ env method suffix body net = (.fail none e, net) := by
  unfold helper.do_ NewRequest
  rw [h]

theorem do_accepted (env : Env) (ch : helper) (method suffix : String) (body : Option String)
    (net : Net) (h : env.newRequestErr method (ch.apiEndpoint ++ "/" ++ suffix) = none) :
    (ch.do_ env method suffix body net).2.sent = net.sent ++
      [{ Method := method
         URL := ch.apiEndpoint ++ "/" ++ suffix
         Header := [("Authorization", "Bearer " ++ ch.auth),
           ("Content-Type", "application/json"), ("Accept", "*/*")]
         Body := body }] := by
  rw [do_sent]
  simp [helper.issued, h, helper.request]

/-- C5, as stated, fails: for the domain `a\nb`, whose URL `http.NewRequest` refuses for
its control character, `Create` and `Update` issue no request at all and return an
error, and so does `List`. -/
theorem With_control_character_no_request :
    (((New SandboxToken []).Dns.With "a\nb").Create (mockEnv (.ok ⟨200, .data ""⟩))
        DnsRecordTypeA (some DnsRecord.zero) Net.empty).2.sent = [] ∧
    (((New SandboxToken []).Dns.With "a\nb").Create (mockEnv (.ok ⟨200, .data ""⟩))
        DnsRecordTypeA (some DnsRecord.zero) Net.empty).1 ≠ none ∧
    (((New SandboxToken []).Dns.With "a\nb").Update (mockEnv (.ok ⟨200, .data ""⟩))
        DnsRecordTypeA (some DnsRecord.zero) Net.empty).2.sent = [] ∧
    (((New SandboxToken []).Dns.With "a\nb").List (mockEnv (.ok ⟨200, .data ""⟩))
        Net.empty).2.sent = [] := by
  decide

/-- C5, amended: `With` only binds the domain to the helper.  On the bound domain `d`,
`Create` is `apiErr` of `helper.do` with `POST` and `Update` with `PUT`, both with the
suffix `"dns/" ++ d ++ "/" ++ t ++ "/v1"` and the JSON serialization of the record as the
body, and `List` calls `helper.do` with `GET` and the suffix `"dns/" ++ d ++ "/records/v1"`.
When `http.NewRequest` accepts the method and the URL `endpoint ++ "/" ++ suffix`, the
operation issues exactly one request, with that method, URL and body; when it refuses
them, the operation issues no request and returns the error of `http.NewRequest`. -/
theorem With_paths_verbatim (env : Env) (dn : dns) (d : String) (t : DnsRecordType)
    (r : Option DnsRecord) (net : Net) :
    dn.With d = { h := dn.h, dom := d } ∧
    (dn.With d).Create env t r net =
      (apiErrOf (dn.h.do_ env "POST" ("dns/" ++ d ++ "/" ++ t ++ "/v1")
          (some (specBody env.jsonQuote r)) net).1,
        (dn.h.do_ env "POST" ("dns/" ++ d ++ "/" ++ t ++ "/v1")
          (some (specBody env.jsonQuote r)) net).2) ∧
    (dn.With d).Update env t r net =
      (apiErrOf (dn.h.do_ env "PUT" ("dns/" ++ d ++ "/" ++ t ++ "/v1")
          (some (specBody env.jsonQuote r)) net).1,
        (dn.h.do_ env "PUT" ("dns/" ++ d ++ "/" ++ t ++ "/v1")
          (some (specBody env.jsonQuote r)) net).2) ∧
    (env.newRequestErr "POST" (dn.h.apiEndpoint ++ "/" ++ ("dns/" ++ d ++ "/" ++ t ++ "/v1"))
        = none →
      ((dn.With d).Create env t r net).2.sent = net.sent ++
        [{ Method := "POST"
           URL := dn.h.apiEndpoint ++ "/" ++ ("dns/" ++ d ++ "/" ++ t ++ "/v1")
           Header := [("Authorization", "Bearer " ++ dn.h.auth),
             ("Content-Type", "application/json"), ("Accept", "*/*")]
           Body := some (specBody env.jsonQuote r) }]) ∧
    (∀ e, env.newRequestErr "POST"
        (dn.h.apiEndpoint ++ "/" ++ ("dns/" ++ d ++ "/" ++ t ++ "/v1")) = some e →
      (dn.With d).Create env t r net = (some { err := some e, resp := none }, net)) ∧
    (env.newRequestErr "PUT" (dn.h.apiEndpoint ++ "/" ++ ("dns/" ++ d ++ "/" ++ t ++ "/v1"))
        = none →
      ((dn.With d).Update env t r net).2.sent = net.sent ++
        [{ Method := "PUT"
           URL := dn.h.apiEndpoint ++ "/" ++ ("dns/" ++ d ++ "/" ++ t ++ "/v1")
           Header := [("Authorization", "Bearer " ++ dn.h.auth),
             ("Content-Type", "application/json"), ("Accept", "*/*")]
           Body := some (specBody env.jsonQuote r) }]) ∧
    (∀ e, env.newRequestErr "PUT"
        (dn.h.apiEndpoint ++ "/" ++ ("dns/" ++ d ++ "/" ++ t ++ "/v1")) = some e →
      (dn.With d).Update env t r net = (some { err := some e, resp := none }, net)) ∧
    (env.newRequestErr "GET" (dn.h.apiEndpoint ++ "/" ++ ("dns/" ++ d ++ "/records/v1"))
        = none →
      ((dn.With d).List env net).2.sent = net.sent ++
        [{ Method := "GET"
           URL := dn.h.apiEndpoint ++ "/" ++ ("dns/" ++ d ++ "/records/v1")
           Header := [("Authorization", "Bearer " ++ dn.h.auth),
             ("Content-Type", "application/json"), ("Accept", "*/*")]
           Body := none }]) ∧
    (∀ e, env.newRequestErr "GET"
        (dn.h.apiEndpoint ++ "/" ++ ("dns/" ++ d ++ "/records/v1")) = some e →
      (dn.With d).List env net = ((none, some { err := some e, resp := none }), net)) := by
  have hc : ∀ method, (dn.With d).change env method t r net =
      dn.h.do_ env method ("dns/" ++ d ++ "/" ++ t ++ "/v1")
        (some (specBody env.jsonQuote r)) net :=
    fun method => change_eq env (dn.With d) method t r net _ (jsonMarshal_eq env r)
  have hcreate : (dn.With d).Create env t r net =
      (apiErrOf (dn.h.do_ env "POST" ("dns/" ++ d ++ "/" ++ t ++ "/v1")
          (some (specBody env.jsonQuote r)) net).1,
        (dn.h.do_ env "POST" ("dns/" ++ d ++ "/" ++ t ++ "/v1")
          (some (specBody env.jsonQuote r)) net).2) := by
    simp only [domainAction.Create, MethodPost, hc]
  have hupdate : (dn.With d).Update env t r net =
      (apiErrOf (dn.h.do_ env "PUT" ("dns/" ++ d ++ "/" ++ t ++ "/v1")
          (some (specBody env.jsonQuote r)) net).1,
        (dn.h.do_ env "PUT" ("dns/" ++ d ++ "/" ++ t ++ "/v1")
          (some (specBody env.jsonQuote r)) net).2) := by
    simp only [domainAction.Update, MethodPut, hc]
  refine ⟨rfl, hcreate, hupdate, ?_, ?_, ?_, ?_, ?_, ?_⟩
  · intro h
    rw [hcreate]
    exact do_accepted env dn.h _ _ _ net h
  · intro e h
    rw [hcreate, do_refused env dn.h _ _ _ net e h]
    rfl
  · intro h
    rw [hupdate]
    exact do_accepted env dn.h _ _ _ net h
  · intro e h
    rw [hupdate, do_refused env dn.h _ _ _ net e h]
    rfl
  · intro h
    rw [recordsList_net]
    exact do_accepted env dn.h _ _ _ net h
  · intro e h
    have hr := do_refused env dn.h "GET" ("dns/" ++ d ++ "/records/v1") none net e h
    unfold domainAction.List
    simp only [MethodGet, dns.With]
    rw [hr]
    rfl

/-- C5, amended, at a concrete input: on the production endpoint, `Create` of an A record
with a TTL of 300, the name `www` and the address `192.0.2.1` in `example.com` issues one
`POST` of `https://api.active24.com/dns/example.com/a/v1` whose body is the object with
the three members `ttl` 300, `name` www and `ip` 192.0.2.1, in that order. -/
theorem With_paths_verbatim_witness :
    (((New SandboxToken []).Dns.With "example.com").Create (mockEnv (.ok ⟨200, .data ""⟩))
        DnsRecordTypeA
        (some { DnsRecord.zero with Ttl := 300, Name := "www", Ip := some "192.0.2.1" })
        Net.empty).2.sent =
      [{ Method := "POST"
         URL := "https://api.active24.com/dns/example.com/a/v1"
         Header := [("Authorization", "Bearer 123456qwerty-ok"),
           ("Content-Type", "application/json"), ("Accept", "*/*")]
         Body := some
           "\x7b\"ttl\":300,\"name\":\"www\",\"ip\":\"192.0.2.1\"\x7d" }] :=
  (With_paths_verbatim (mockEnv (.ok ⟨200, .data ""⟩)) (New SandboxToken []).Dns
    "example.com" DnsRecordTypeA
    (some { DnsRecord.zero with Ttl := 300, Name := "www", Ip := some "192.0.2.1" })
    Net.empty).2.2.2.1 (by decide)

/-! ## The domains facade -/

/-- C9: `Status` and `Expiration` issue the same requests, those of the one call of
`helper.do` with `GET` and the suffix `"domains/" ++ d ++ "/expiration/v1"`; and when the
transport returns a response whose body is read without error, `Status` returns that body
as it is with a nil error, whatever the status code and the body. -/
theorem Status_uses_expiration_path (env : Env) (d : domains) (domain : String) (net : Net) :
    (d.Status env domain net).2.sent = net.sent ++
      d.h.issued env "GET" ("domains/" ++ domain ++ "/expiration/v1") none ∧
    (d.Expiration env domain net).2.sent = net.sent ++
      d.h.issued env "GET" ("domains/" ++ domain ++ "/expiration/v1") none ∧
    (d.Status env domain net).2.sent = (d.Expiration env domain net).2.sent ∧
    (∀ (code : Int) (body : String),
      (d.h.do_ env "GET" ("domains/" ++ domain ++ "/expiration/v1") none net).1 =
        .ok ⟨code, .data body⟩ →
      (d.Status env domain net).1 = (some body, none)) := by
  have h1 := status_net env d domain net
  have h2 := expiration_net env d domain net
  have h3 := do_sent env d.h MethodGet ("domains/" ++ domain ++ "/expiration/v1") none net
  refine ⟨h1.trans h3, h2.trans h3, h1.trans h2.symm, ?_⟩
  intro code body hdo
  unfold domains.Status
  rcases h : d.h.do_ env MethodGet ("domains/" ++ domain ++ "/expiration/v1") none net
    with ⟨res, n⟩
  have hres : res = .ok ⟨code, .data body⟩ := by
    have := hdo
    simp only [MethodGet] at h
    rw [h] at this
    exact this
  subst hres
  simp [apiErr]

/-- C9, at a concrete input: a mock server answering 500 with the body `whatever` makes
`Status` return that body with a nil error. -/
theorem Status_uses_expiration_path_witness :
    ((New SandboxToken []).Domains.Status (mockEnv (.ok ⟨500, .data "whatever"⟩))
      "example.com" Net.empty).1 = (some "whatever", none) :=
  (Status_uses_expiration_path (mockEnv (.ok ⟨500, .data "whatever"⟩))
    (New SandboxToken []).Domains "example.com" Net.empty).2.2.2 500 "whatever" (by decide)

/-- C8, as stated, fails: the body `2024-01-15T1:02:03Z`, with an hour of one digit, is
no timestamp of RFC 3339, and `time.Parse` reads it all the same, so `Expiration` returns
a timestamp with a nil error for it. -/
theorem Expiration_accepts_one_digit_hour :
    isRFC3339 "2024-01-15T1:02:03Z" = false ∧
    ((New SandboxToken []).Domains.Expiration
      (mockEnv (.ok ⟨200, .data "2024-01-15T1:02:03Z"⟩)) "example.com" Net.empty).1 =
      (some ⟨2024, 1, 15, 1, 2, 3, 0, 0⟩, none) := by
  decide

/-- C8, amended: when the transport returns a response whose body is read without error,
`Expiration` returns the timestamp `time.Parse(time.RFC3339, body)` reads from the whole
body with a nil error when `time.Parse` accepts the body, and a nil timestamp with an
error that carries the parse error and the response when `time.Parse` rejects it; the
status code of the response is not looked at. -/
theorem Expiration_parses_body (env : Env) (d : domains) (domain : String) (net : Net)
    (resp : Response) (body : String)
    (hdo : (d.h.do_ env "GET" ("domains/" ++ domain ++ "/expiration/v1") none net).1 =
      .ok resp)
    (hbody : resp.Body = .data body) :
    (∀ t, env.timeParseRFC3339 body = .ok t →
      (d.Expiration env domain net).1 = (some t, none)) ∧
    (∀ e, env.timeParseRFC3339 body = .error e →
      (d.Expiration env domain net).1 = (none, some { err := some e, resp := some resp })) := by
  unfold domains.Expiration
  rcases h : d.h.do_ env MethodGet ("domains/" ++ domain ++ "/expiration/v1") none net
    with ⟨res, n⟩
  have hres : res = .ok resp := by
    have := hdo
    simp only [MethodGet] at h
    rw [h] at this
    exact this
  subst hres
  constructor
  · intro t ht
    simp [hbody, ht, apiErr]
  · intro e he
    simp [hbody, he, apiErr]

/-- C8, amended, at the two bodies of the specification: `2024-01-15T00:00:00Z`, a
timestamp of RFC 3339, yields midnight of 15 January 2024 in UTC with a nil error, for a
status 200 as for a status 500, and `not-a-date` yields a nil timestamp with the parse
error of `time.Parse` and the response. -/
theorem Expiration_parses_body_witness :
    isRFC3339 "2024-01-15T00:00:00Z" = true ∧
    ((New SandboxToken []).Domains.Expiration
      (mockEnv (.ok ⟨200, .data "2024-01-15T00:00:00Z"⟩)) "example.com" Net.empty).1 =
      (some ⟨2024, 1, 15, 0, 0, 0, 0, 0⟩, none) ∧
    ((New SandboxToken []).Domains.Expiration
      (mockEnv (.ok ⟨500, .data "2024-01-15T00:00:00Z"⟩)) "example.com" Net.empty).1 =
      (some ⟨2024, 1, 15, 0, 0, 0, 0, 0⟩, none) ∧
    ((New SandboxToken []).Domains.Expiration
      (mockEnv (.ok ⟨200, .data "not-a-date"⟩)) "example.com" Net.empty).1 =
      (none, some
        { err := some ⟨String.join ["parsing time \"not-a-date\" as ",
            "\"2006-01-02T15:04:05Z07:00\": cannot parse \"not-a-date\" as \"2006\""]⟩
          resp := some ⟨200, .data "not-a-date"⟩ }) :=
  ⟨by decide,
   (Expiration_parses_body (mockEnv (.ok ⟨200, .data "2024-01-15T00:00:00Z"⟩))
      (New SandboxToken []).Domains "example.com" Net.empty
      ⟨200, .data "2024-01-15T00:00:00Z"⟩ "2024-01-15T00:00:00Z" (by decide) rfl).1 _ (by rfl),
   (Expiration_parses_body (mockEnv (.ok ⟨500, .data "2024-01-15T00:00:00Z"⟩))
      (New SandboxToken []).Domains "example.com" Net.empty
      ⟨500, .data "2024-01-15T00:00:00Z"⟩ "2024-01-15T00:00:00Z" (by decide) rfl).1 _ (by rfl),
   (Expiration_parses_body (mockEnv (.ok ⟨200, .data "not-a-date"⟩))
      (New SandboxToken []).Domains "example.com" Net.empty
      ⟨200, .data "not-a-date"⟩ "not-a-date" (by decide) rfl).2 _ (by rfl)⟩

/-! ## Status codes in the record listing -/

/-- C4: when the transport returns a response, `domainAction.List` returns, for every
status code from 400 to 599 and every body, a nil list and an error whose message is
`invalid response from api: ` followed by the code in decimal and whose response is that
response; for every other status code its result is decided by the body read and the JSON
decoding alone. -/
theorem recordsList_status_check (env : Env) (d : domainAction) (net : Net) (resp : Response)
    (hdo : (d.h.do_ env "GET" ("dns/" ++ d.dom ++ "/records/v1") none net).1 = .ok resp) :
    (400 ≤ resp.StatusCode ∧ resp.StatusCode ≤ 599 →
      (d.List env net).1 = (none, some
        { err := some ⟨"invalid response from api: " ++ toString resp.StatusCode⟩
          resp := some resp })) ∧
    (¬ (400 ≤ resp.StatusCode ∧ resp.StatusCode ≤ 599) →
      (d.List env net).1 =
        match resp.Body with
        | .failure err => (none, some { err := some err, resp := some resp })
        | .data body =>
          match env.unmarshalRecords body (some []) with
          | (_, some err) => (none, some { err := some err, resp := some resp })
          | (ret, none) => (ret, none)) := by
  unfold domainAction.List
  rcases h : d.h.do_ env MethodGet ("dns/" ++ d.dom ++ "/records/v1") none net with ⟨res, n⟩
  have hres : res = .ok resp := by
    have := hdo
    simp only [MethodGet] at h
    rw [h] at this
    exact this
  subst hres
  constructor
  · intro hs
    have hc : resp.StatusCode > 399 ∧ resp.StatusCode < 600 := by
      constructor <;> omega
    simp [hc, apiErr]
  · intro hs
    have hc : ¬ (resp.StatusCode > 399 ∧ resp.StatusCode < 600) := by
      intro hc
      apply hs
      constructor <;> omega
    simp only [hc, if_false]
    cases hb : resp.Body with
    | failure err => simp [apiErr]
    | data body =>
      simp only
      rcases hu : env.unmarshalRecords body (some []) with ⟨ret, e⟩
      cases e <;> simp [apiErr]

/-- C4, at the input of the specification: a mock server answering 404 with an empty body
makes the record listing return a nil list and the error `invalid response from api: 404`
with the response. -/
theorem recordsList_status_check_witness :
    (((New SandboxToken []).Dns.With "example.com").List
      (mockEnv (.ok ⟨404, .data ""⟩)) Net.empty).1 =
      (none, some { err := some ⟨"invalid response from api: 404"⟩
                    resp := some ⟨404, .data ""⟩ }) :=
  (recordsList_status_check (mockEnv (.ok ⟨404, .data ""⟩))
    ((New SandboxToken []).Dns.With "example.com") Net.empty ⟨404, .data ""⟩
    (by decide)).1 (by decide)

/-! ## Results and errors -/

/-- C1, as stated, fails: a mock server answering 200 with the body `null` makes `dns.List`
return a nil list together with a nil error, which is neither (non-nil, nil) nor
(nil, non-nil). -/
theorem dnsList_null_body_nil_nil :
    (dns.List (mockEnv (.ok ⟨200, .data "null"⟩)) (New SandboxToken []).Dns Net.empty).1 =
      (none, none) ∧
    ¬ (((dns.List (mockEnv (.ok ⟨200, .data "null"⟩)) (New SandboxToken []).Dns
          Net.empty).1.1 ≠ none ∧
        (dns.List (mockEnv (.ok ⟨200, .data "null"⟩)) (New SandboxToken []).Dns
          Net.empty).1.2 = none) ∨
       ((dns.List (mockEnv (.ok ⟨200, .data "null"⟩)) (New SandboxToken []).Dns
          Net.empty).1.1 = none ∧
        (dns.List (mockEnv (.ok ⟨200, .data "null"⟩)) (New SandboxToken []).Dns
          Net.empty).1.2 ≠ none)) := by
  have h : (dns.List (mockEnv (.ok ⟨200, .data "null"⟩)) (New SandboxToken []).Dns
      Net.empty).1 = (none, none) := by decide
  refine ⟨h, ?_⟩
  rw [h]
  simp

/-- C1, amended: `apiErr(resp, err)` is nil exactly when `err` is nil, and a non-nil one
carries `err` and `resp`.  `Expiration` and `Status` return either a non-nil result with a
nil error or a nil result with a non-nil error, for every transport outcome.  The three
listings never return a non-nil error together with a non-nil result, and with a nil error
they return the slice `json.Unmarshal` left in the variable for the body of the response
(for the record listing, of a response whose status is outside 400..599). -/
theorem result_and_error_exclusive (env : Env) (net : Net) :
    (∀ (resp : Option Response) (err : Option GoError),
      (apiErr resp err = none ↔ err = none) ∧
      (∀ a, apiErr resp err = some a → a.Error = err ∧ a.Response = resp)) ∧
    (∀ (d : domains) (domain : String),
      ((d.Expiration env domain net).1.1 ≠ none ∧ (d.Expiration env domain net).1.2 = none) ∨
      ((d.Expiration env domain net).1.1 = none ∧ (d.Expiration env domain net).1.2 ≠ none)) ∧
    (∀ (d : domains) (domain : String),
      ((d.Status env domain net).1.1 ≠ none ∧ (d.Status env domain net).1.2 = none) ∨
      ((d.Status env domain net).1.1 = none ∧ (d.Status env domain net).1.2 ≠ none)) ∧
    (∀ (d : dns),
      ((d.List env net).1.2 ≠ none → (d.List env net).1.1 = none) ∧
      ((d.List env net).1.2 = none → ∃ resp body,
        (d.h.do_ env "GET" "dns/domains/v1" none net).1 = .ok resp ∧
        resp.Body = .data body ∧
        env.unmarshalStrings body (some []) = ((d.List env net).1.1, none))) ∧
    (∀ (d : domainAction),
      ((d.List env net).1.2 ≠ none → (d.List env net).1.1 = none) ∧
      ((d.List env net).1.2 = none → ∃ resp body,
        (d.h.do_ env "GET" ("dns/" ++ d.dom ++ "/records/v1") none net).1 = .ok resp ∧
        ¬ (400 ≤ resp.StatusCode ∧ resp.StatusCode ≤ 599) ∧
        resp.Body = .data body ∧
        env.unmarshalRecords body (some []) = ((d.List env net).1.1, none))) ∧
    (∀ (d : domains),
      ((d.List env net).1.2 ≠ none → (d.List env net).1.1 = none) ∧
      ((d.List env net).1.2 = none → ∃ resp body,
        (d.h.do_ env "GET" "domains/v1" none net).1 = .ok resp ∧
        resp.Body = .data body ∧
        env.unmarshalDomains body (some []) = ((d.List env net).1.1, none))) := by
  refine ⟨?_, ?_, ?_, ?_, ?_, ?_⟩
  · intro resp err
    cases err with
    | none => simp [apiErr]
    | some e =>
      refine ⟨by simp [apiErr], ?_⟩
      intro a h
      simp only [apiErr, Option.some.injEq] at h
      subst h
      exact ⟨rfl, rfl⟩
  · intro d domain
    unfold domains.Expiration
    rcases h : d.h.do_ env MethodGet ("domains/" ++ domain ++ "/expiration/v1") none net
      with ⟨res, n⟩
    cases res with
    | fail r e => simp [apiErr]
    | ok resp =>
      cases hb : resp.Body with
      | failure err => simp [hb, apiErr]
      | data body =>
        cases ht : env.timeParseRFC3339 body <;> simp [hb, ht, apiErr]
  · intro d domain
    unfold domains.Status
    rcases h : d.h.do_ env MethodGet ("domains/" ++ domain ++ "/expiration/v1") none net
      with ⟨res, n⟩
    cases res with
    | fail r e => simp [apiErr]
    | ok resp =>
      cases hb : resp.Body <;> simp [hb, apiErr]
  · intro d
    unfold dns.List
    simp only [MethodGet]
    rcases h : d.h.do_ env "GET" "dns/domains/v1" none net with ⟨res, n⟩
    cases res with
    | fail r e => simp [apiErr]
    | ok resp =>
      cases hb : resp.Body with
      | failure err => simp [hb, apiErr]
      | data body =>
        rcases hu : env.unmarshalStrings body (some []) with ⟨ret, e⟩
        cases e <;> simp [hb, hu, apiErr]
  · intro d
    unfold domainAction.List
    simp only [MethodGet]
    rcases h : d.h.do_ env "GET" ("dns/" ++ d.dom ++ "/records/v1") none net with ⟨res, n⟩
    cases res with
    | fail r e => simp [apiErr]
    | ok resp =>
      by_cases hc : resp.StatusCode > 399 ∧ resp.StatusCode < 600
      · simp [hc, apiErr]
      · have hs : ¬ (400 ≤ resp.StatusCode ∧ resp.StatusCode ≤ 599) := by
          intro hs
          apply hc
          constructor <;> omega
        simp only [hc, if_false]
        cases hb : resp.Body with
        | failure err => simp [hb, apiErr]
        | data body =>
          rcases hu : env.unmarshalRecords body (some []) with ⟨ret, e⟩
          cases e with
          | none =>
            simp only [hb, hu, apiErr]
            exact ⟨fun hne => absurd rfl hne, fun _ => ⟨resp, body, rfl, hs, hb, hu⟩⟩
          | some e => simp [hb, hu, apiErr]
  · intro d
    unfold domains.List
    simp only [MethodGet]
    rcases h : d.h.do_ env "GET" "domains/v1" none net with ⟨res, n⟩
    cases res with
    | fail r e => simp [apiErr]
    | ok resp =>
      cases hb : resp.Body with
      | failure err => simp [hb, apiErr]
      | data body =>
        rcases hu : env.unmarshalDomains body (some []) with ⟨ret, e⟩
        cases e <;> simp [hb, hu, apiErr]

/-! ## Serialization of a DNS record -/

set_option maxRecDepth 100000 in
/-- C6: for every DNS record and every environment, `json.Marshal` writes the object of
the documented keys whose field is set, in the documented order, each with the value of
its field (an integer in decimal, a string as a JSON string literal), and nothing else: a
pair is a member exactly when it is a documented key with its set value, `ttl` and `name`
are always members, and the keys are distinct and among the 22 documented ones.  A
record with only TTL and name set is written as the object of `ttl` and `name` alone, read
back with exactly these two keys; the zero record is written with `ttl` 0 and the empty
`name`; and a record with every field set is written with all 22 keys. -/
theorem jsonMarshal_documented (r : DnsRecord) :
    (∀ env : Env, jsonMarshal env (some r) = .ok (r.specJson env.jsonQuote)) ∧
    r.jsonMembers = r.documented.filterMap setMember ∧
    (∀ k v, (k, v) ∈ r.jsonMembers ↔ (k, some v) ∈ r.documented) ∧
    ("ttl", JsonScalar.int r.Ttl) ∈ r.jsonMembers ∧
    ("name", JsonScalar.str r.Name) ∈ r.jsonMembers ∧
    (r.jsonMembers.map Prod.fst).Sublist documentedKeys ∧
    (r.jsonMembers.map Prod.fst).Nodup ∧
    documentedKeys.length = 22 ∧
    (∀ (ttl : Int) (name : String),
      ({ DnsRecord.zero with Ttl := ttl, Name := name } : DnsRecord).jsonMembers =
        [("ttl", .int ttl), ("name", .str name)]) ∧
    jsonMarshal (mockEnv (.ok ⟨200, .data ""⟩))
        (some { DnsRecord.zero with Ttl := 300, Name := "www" }) =
      .ok "\x7b\"ttl\":300,\"name\":\"www\"\x7d" ∧
    objectKeys "\x7b\"ttl\":300,\"name\":\"www\"\x7d" = some ["ttl", "name"] ∧
    jsonMarshal (mockEnv (.ok ⟨200, .data ""⟩)) (some DnsRecord.zero) =
      .ok "\x7b\"ttl\":0,\"name\":\"\"\x7d" ∧
    (∀ (hashId type target nameserver ip caaValue tag aliasV mailserver hash text name : String)
       (ttl port priority weight flags algorithm fingerprintType certificateUsage matchingType
         selector : Int),
      ({ HashId := some hashId, Type_ := some type, Ttl := ttl, Name := name,
         Port := some port, Priority := some priority, Target := some target,
         Weight := some weight, NameServer := some nameserver, Ip := some ip,
         CaaValue := some caaValue, Flags := some flags, Tag := some tag,
         Alias := some aliasV, MailServer := some mailserver, Algorithm := some algorithm,
         FingerprintType := some fingerprintType,
         CertificateUsage := some certificateUsage, Hash := some hash,
         MatchingType := some matchingType, Selector := some selector,
         Text := some text } : DnsRecord).jsonMembers =
        [("hashId", .str hashId), ("type", .str type), ("ttl", .int ttl), ("name", .str name),
         ("port", .int port), ("priority", .int priority), ("target", .str target),
         ("weight", .int weight), ("nameserver", .str nameserver), ("ip", .str ip),
         ("caaValue", .str caaValue), ("flags", .int flags), ("tag", .str tag),
         ("alias", .str aliasV), ("mailserver", .str mailserver),
         ("algorithm", .int algorithm), ("fingerprintType", .int fingerprintType),
         ("certificateUsage", .int certificateUsage), ("hash", .str hash),
         ("matchingType", .int matchingType), ("selector", .int selector),
         ("text", .str text)]) ∧
    jsonMarshal (mockEnv (.ok ⟨200, .data ""⟩))
        (some { HashId := some "h1", Type_ := some "SRV", Ttl := 3600, Name := "_sip",
                Port := some 5060, Priority := some 10, Target := some "sip.example.com",
                Weight := some 20, NameServer := some "ns1", Ip := some "192.0.2.1",
                CaaValue := some "ca.example", Flags := some 128, Tag := some "issue",
                Alias := some "host1", MailServer := some "mx1", Algorithm := some 4,
                FingerprintType := some 2, CertificateUsage := some 3,
                Hash := some "abcdef", MatchingType := some 1, Selector := some 0,
                Text := some "v=spf1 -all" }) =
      .ok (String.join ["\x7b\"hashId\":\"h1\",\"type\":\"SRV\",\"ttl\":3600,\"name\":\"_sip\",",
        "\"port\":5060,\"priority\":10,\"target\":\"sip.example.com\",\"weight\":20,",
        "\"nameserver\":\"ns1\",\"ip\":\"192.0.2.1\",\"caaValue\":\"ca.example\",",
        "\"flags\":128,\"tag\":\"issue\",\"alias\":\"host1\",\"mailserver\":\"mx1\",",
        "\"algorithm\":4,\"fingerprintType\":2,\"certificateUsage\":3,\"hash\":\"abcdef\",",
        "\"matchingType\":1,\"selector\":0,\"text\":\"v=spf1 -all\"\x7d"]) ∧
    objectKeys (String.join ["\x7b\"hashId\":\"h1\",\"type\":\"SRV\",\"ttl\":3600,\"name\":\"_sip\",",
        "\"port\":5060,\"priority\":10,\"target\":\"sip.example.com\",\"weight\":20,",
        "\"nameserver\":\"ns1\",\"ip\":\"192.0.2.1\",\"caaValue\":\"ca.example\",",
        "\"flags\":128,\"tag\":\"issue\",\"alias\":\"host1\",\"mailserver\":\"mx1\",",
        "\"algorithm\":4,\"fingerprintType\":2,\"certificateUsage\":3,\"hash\":\"abcdef\",",
        "\"matchingType\":1,\"selector\":0,\"text\":\"v=spf1 -all\"\x7d"]) =
      some documentedKeys := by
  have heq := jsonMembers_eq r
  have hmem : ∀ k v, (k, v) ∈ r.jsonMembers ↔ (k, some v) ∈ r.documented := by
    intro k v
    rw [heq, List.mem_filterMap]
    constructor
    · rintro ⟨⟨k1, v1⟩, hin, hset⟩
      cases v1 with
      | none => simp [setMember] at hset
      | some x =>
        simp only [setMember, Option.map_some', Option.some.injEq, Prod.mk.injEq] at hset
        rcases hset with ⟨rfl, rfl⟩
        exact hin
    · intro hin
      exact ⟨(k, some v), hin, rfl⟩
  have hsub : (r.jsonMembers.map Prod.fst).Sublist documentedKeys := by
    rw [heq]
    have h := setMember_keys_sublist r.documented
    simpa [DnsRecord.documented, documentedKeys] using h
  refine ⟨fun env => jsonMarshal_eq env (some r), heq, hmem, ?_, ?_, hsub, ?_, ?_, ?_,
    by rfl, by decide, by rfl, ?_, by rfl, by decide⟩
  · rw [hmem]; simp [DnsRecord.documented]
  · rw [hmem]; simp [DnsRecord.documented]
  · exact hsub.nodup (by decide)
  · simp [documentedKeys]
  · intro ttl name
    simp [DnsRecord.jsonMembers, DnsRecord.zero, omitemptyStr, omitemptyInt]
  · intros
    simp [DnsRecord.jsonMembers, omitemptyStr, omitemptyInt]

/-! ## Closing of response bodies -/

theorem closed_after_ok {α : Type} (env : Env) (ch : helper) (suffix : String) (net : Net)
    (resp : Response) (out : Response → α) (bad : GoError → α)
    (hdo : (ch.do_ env MethodGet suffix none net).1 = .ok resp) :
    (match ch.do_ env MethodGet suffix none net with
      | (.fail _ err, net1) => (bad err, net1)
      | (.ok resp, net1) => (out resp, net1.Close resp)).2.closed = net.closed ++ [resp] := by
  have hc := do_closed env ch MethodGet suffix none net
  rcases h : ch.do_ env MethodGet suffix none net with ⟨res, n⟩
  rw [h] at hdo hc
  simp only at hdo hc
  subst hdo
  simp [Net.Close, hc]

/-- The five operations that read the response close its body: when the transport returns
a response, that response is the one body closed by the time the operation returns, on
the success path and on every error path. -/
theorem reading_operations_close_body (env : Env) (net : Net) (resp : Response) :
    (∀ (d : dns), (d.h.do_ env MethodGet "dns/domains/v1" none net).1 = .ok resp →
      (d.List env net).2.closed = net.closed ++ [resp]) ∧
    (∀ (d : domainAction),
      (d.h.do_ env MethodGet ("dns/" ++ d.dom ++ "/records/v1") none net).1 = .ok resp →
      (d.List env net).2.closed = net.closed ++ [resp]) ∧
    (∀ (d : domains), (d.h.do_ env MethodGet "domains/v1" none net).1 = .ok resp →
      (d.List env net).2.closed = net.closed ++ [resp]) ∧
    (∀ (d : domains) (domain : String),
      (d.h.do_ env MethodGet ("domains/" ++ domain ++ "/expiration/v1") none net).1 = .ok resp →
      (d.Expiration env domain net).2.closed = net.closed ++ [resp]) ∧
    (∀ (d : domains) (domain : String),
      (d.h.do_ env MethodGet ("domains/" ++ domain ++ "/expiration/v1") none net).1 = .ok resp →
      (d.Status env domain net).2.closed = net.closed ++ [resp]) := by
  refine ⟨?_, ?_, ?_, ?_, ?_⟩
  · intro d hdo
    exact closed_after_ok env d.h _ net resp _ _ hdo
  · intro d hdo
    exact closed_after_ok env d.h _ net resp _ _ hdo
  · intro d hdo
    exact closed_after_ok env d.h _ net resp _ _ hdo
  · intro d domain hdo
    exact closed_after_ok env d.h _ net resp _ _ hdo
  · intro d domain hdo
    exact closed_after_ok env d.h _ net resp _ _ hdo

/-- C10: `Create`, `Update` and `Delete` never close a response body: for every
environment the closed bodies after the call are those before it.  On a mock server
answering 200, `Create`, `Update` and `Delete` each receive the response from the
transport and return with no body closed. -/
theorem change_and_delete_leave_body_open :
    (∀ (env : Env) (d : domainAction) (t : DnsRecordType) (r : Option DnsRecord) (net : Net),
      (d.Create env t r net).2.closed = net.closed ∧
      (d.Update env t r net).2.closed = net.closed) ∧
    (∀ (env : Env) (d : domainAction) (hashId : String) (net : Net),
      (d.Delete env hashId net).2.closed = net.closed) ∧
    (((New SandboxToken []).Dns.With "example.com").change (mockEnv (.ok ⟨200, .data ""⟩))
        MethodPost DnsRecordTypeA (some DnsRecord.zero) Net.empty).1 = .ok ⟨200, .data ""⟩ ∧
    (((New SandboxToken []).Dns.With "example.com").Create (mockEnv (.ok ⟨200, .data ""⟩))
        DnsRecordTypeA (some DnsRecord.zero) Net.empty) =
      (none,
        { sent := [{ Method := "POST"
                     URL := "https://api.active24.com/dns/example.com/a/v1"
                     Header := [("Authorization", "Bearer 123456qwerty-ok"),
                       ("Content-Type", "application/json"), ("Accept", "*/*")]
                     Body := some "\x7b\"ttl\":0,\"name\":\"\"\x7d" }]
          closed := [] }) ∧
    (((New SandboxToken []).Dns.With "example.com").Update (mockEnv (.ok ⟨200, .data ""⟩))
        DnsRecordTypeA (some DnsRecord.zero) Net.empty).2.closed = [] ∧
    (((New SandboxToken []).Dns.With "example.com").h.do_ (mockEnv (.ok ⟨200, .data ""⟩))
        MethodDelete "/dns/example.com/abc/v1" none Net.empty).1 = .ok ⟨200, .data ""⟩ ∧
    (((New SandboxToken []).Dns.With "example.com").Delete (mockEnv (.ok ⟨200, .data ""⟩))
        "abc" Net.empty).2.closed = [] := by
  refine ⟨?_, ?_, by decide, by decide, by decide, by decide, by decide⟩
  · intro env d t r net
    obtain ⟨data, hdata⟩ := jsonMarshal_ok env r
    simp only [domainAction.Create, domainAction.Update]
    rw [change_eq env d _ t r net data hdata, change_eq env d _ t r net data hdata]
    exact ⟨do_closed env d.h _ _ _ net, do_closed env d.h _ _ _ net⟩
  · intro env d hashId net
    simp only [domainAction.Delete]
    exact do_closed env d.h _ _ _ net

end active24
